import Mathlib

/-!
Verification of the EGX stock-assistant quantitative core against its
specification.

The Python sources embedded here (shallowly, over exact rationals — IEEE
floats are modelled as exact rational arithmetic, and Python `None` as
`Option`) are:

  * src/core/quant.py            — compute_var, compute_hurst (+ aliases)
  * src/core/indicators.py       — calculate_rsi / calculate_macd / calculate_ema
  * src/core/series_utils.py     — close series, simple returns
  * src/core/schemas.py          — the data model consumed by the engine
  * src/core/config.py           — quant configuration constants
  * src/services/strategy_engine.py — StrategyEngine

Display-only artifacts (evidence summary strings, the logic-summary text,
pydantic provenance metadata) are not modelled: no claim refers to them and
they feed back into no numeric output.  Values that the Python code computes
with `math.log` / `np.log` (the Hurst regression) are modelled over `ℝ`.
-/

namespace EGX

/-! ## Python numeric primitives -/

/-- Python `round` uses banker's rounding (round half to even).  This is
`round(q)` for an exact rational `q`. -/
def roundHalfEven (q : ℚ) : ℤ :=
  if q - ⌊q⌋ < 1 / 2 then ⌊q⌋
  else if q - ⌊q⌋ > 1 / 2 then ⌊q⌋ + 1
  else if ⌊q⌋ % 2 = 0 then ⌊q⌋ else ⌊q⌋ + 1

/-- Python `round(q, n)`: banker's rounding at `n` decimal places. -/
def roundTo (n : ℕ) (q : ℚ) : ℚ :=
  (roundHalfEven (q * 10 ^ n) : ℚ) / 10 ^ n

/-- `np.clip(x, lo, hi)` = `min(hi, max(lo, x))`. -/
def np_clip (x lo hi : ℚ) : ℚ := min hi (max lo x)

/-- `math.isclose(a, b)` with Python's default `rel_tol=1e-9` and the
`abs_tol=1e-6` that `StrategyEngine.__init__` passes. -/
def math_isclose (a b : ℚ) : Bool :=
  |a - b| ≤ max (1 / 1000000000 * max |a| |b|) (1 / 1000000)

/-! ## Data model (src/core/schemas.py)

Only the fields that the quantitative core reads are modelled; the remaining
pydantic fields (provenance, timestamps, warnings, confidence intervals...)
are display-only and feed into no output any claim mentions.  Dates are
modelled as integers (Python `date` ordinals); `open` is renamed
`open_price` because `open` is a Lean keyword. -/

inductive HurstRegime where
  | mean_reverting
  | random_like
  | trending
deriving DecidableEq

/-- `HurstRegime.value` (the pydantic string enum payload). -/
def HurstRegime.value : HurstRegime → String
  | .mean_reverting => "mean_reverting"
  | .random_like => "random_like"
  | .trending => "trending"

inductive StrategyAction where
  | buy
  | sell
  | hold
deriving DecidableEq

structure PriceBar where
  date : ℤ
  open_price : ℚ
  high : ℚ
  low : ℚ
  close : ℚ
  volume : Option ℚ
  adjusted_close : Option ℚ
deriving DecidableEq

structure PriceSeries where
  symbol : String
  bars : List PriceBar
deriving DecidableEq

/-- `ForecastResult`: the engine consumes only `predicted_close`. -/
structure ForecastResult where
  predicted_close : ℚ
deriving DecidableEq

/-- `RiskMetricsSnapshot`: the engine consumes only `var_95_pct`. -/
structure RiskMetricsSnapshot where
  var_95_pct : Option ℚ
deriving DecidableEq

/-- `StatisticalValidationResult`: the engine consumes only `hurst` and
`hurst_regime`. -/
structure StatisticalValidationResult where
  hurst : Option ℚ
  hurst_regime : Option HurstRegime
deriving DecidableEq

/-- `PriceSeries.get_latest_bar`: Python `max(self.bars, key=lambda b: b.date)`
keeps the first bar among ties; `max` raises on an empty list, modelled as
`none` (pydantic enforces `min_length=1`). -/
def get_latest_bar (s : PriceSeries) : Option PriceBar :=
  match s.bars with
  | [] => none
  | b :: rest => some (rest.foldl (fun acc x => if acc.date < x.date then x else acc) b)

/-- `PriceSeries.get_latest_close`, totalised with a junk default for the
empty series (on which the Python method would raise). -/
def latest_close (s : PriceSeries) : ℚ :=
  match get_latest_bar s with
  | some b => b.close
  | none => 0

/-- Date of the latest bar, totalised like `latest_close`. -/
def latest_date (s : PriceSeries) : ℤ :=
  match get_latest_bar s with
  | some b => b.date
  | none => 0

/-! ## src/core/series_utils.py -/

/-- Bars sorted ascending by date (`sorted(bars, key=...)` /
`df.sort_values("date")`).  Both Python sorts are value sorts keyed on the
date; ties between duplicate dates never arise in the inputs the claims are
settled on. -/
def sorted_bars (bars : List PriceBar) : List PriceBar :=
  List.insertionSort (fun a b => a.date ≤ b.date) bars

/-- Close prices in ascending date order (`close_series`). -/
def sorted_closes (s : PriceSeries) : List ℚ :=
  (sorted_bars s.bars).map (·.close)

/-- `closes.pct_change().dropna()` : `r_t = c_t / c_{t-1} - 1`.  Division by
zero cannot occur on pydantic-valid bars (`close > 0`). -/
def simple_returns (closes : List ℚ) : List ℚ :=
  List.zipWith (fun prev cur => cur / prev - 1) closes closes.tail

/-- `get_returns(series, Config.DEFAULT_RETURN_TYPE)` with
`DEFAULT_RETURN_TYPE = "simple"` (config.py line 47), the only return type
the strategy engine uses. -/
def get_returns (s : PriceSeries) : List ℚ :=
  simple_returns (sorted_closes s)

/-! ## src/core/config.py (quant constants) -/

def Config.MIN_OBSERVATIONS_RISK : ℕ := 60

def Config.MIN_OBSERVATIONS_VALIDATION : ℕ := 100

/-! ## src/core/indicators.py -/

/-- Tail of `Series.ewm(span, adjust=False).mean()`:
`y_t = (1 - α) y_{t-1} + α x_t`. -/
def ewm_go (a : ℚ) (prev : ℚ) : List ℚ → List ℚ
  | [] => []
  | x :: xs => ((1 - a) * prev + a * x) :: ewm_go a ((1 - a) * prev + a * x) xs

/-- `Series.ewm(span=span, adjust=False).mean()` with `α = 2 / (span + 1)`;
seeded by the first value. -/
def ewm_mean (span : ℕ) (l : List ℚ) : List ℚ :=
  match l with
  | [] => []
  | x :: xs => x :: ewm_go (2 / (span + 1 : ℚ)) x xs

/-- `Series.rolling(window=w, min_periods=w).mean()`: defined from index
`w - 1` on, `none` (NaN) before. -/
def rolling_mean (w : ℕ) (l : List ℚ) : List (Option ℚ) :=
  (List.range l.length).map (fun i =>
    if w ≤ i + 1 then some ((((l.drop (i + 1 - w)).take w).sum) / w) else none)

/-- `calculate_rsi(series, period).dropna().iloc[-1]` on the sorted closes:
the last defined RSI value, `none` when every entry is NaN (in which case the
Python caller's `iloc[-1]` raises and the indicator is skipped).

pandas detail honoured here: `delta.where(delta > 0, 0)` maps the leading
NaN diff to 0, so the rolling window at index `i` covers gains/losses at
indices `i-13 .. i` of the padded lists; `rs = avg_gain / avg_loss` is `inf`
when `avg_loss == 0 < avg_gain` (RSI 100) and NaN when both are 0. -/
def rsi_last (period : ℕ) (closes : List ℚ) : Option ℚ :=
  match closes with
  | [] => none
  | _ :: _ =>
    let deltas := List.zipWith (fun prev cur => cur - prev) closes closes.tail
    let gain := 0 :: deltas.map (fun d => if d > 0 then d else 0)
    let loss := 0 :: deltas.map (fun d => if d < 0 then -d else 0)
    let rsi := ((rolling_mean period gain).zip (rolling_mean period loss)).map
      (fun p =>
        match p with
        | (some g, some lo) =>
          if lo > 0 then some (100 - 100 / (1 + g / lo))
          else if g > 0 then some (100 : ℚ)
          else none
        | _ => none)
    (rsi.filterMap id).getLast?

/-- `calculate_macd`: (macd_line, signal_line, histogram) from
adjust-false EWMs; `histogram = macd_line - signal_line`. -/
def calculate_macd (fast_period slow_period signal_period : ℕ)
    (closes : List ℚ) : List ℚ × List ℚ × List ℚ :=
  let fast_ema := ewm_mean fast_period closes
  let slow_ema := ewm_mean slow_period closes
  let macd_line := List.zipWith (· - ·) fast_ema slow_ema
  let signal_line := ewm_mean signal_period macd_line
  (macd_line, signal_line, List.zipWith (· - ·) macd_line signal_line)

/-- `calculate_ema(series, period)` on the sorted closes. -/
def calculate_ema (period : ℕ) (closes : List ℚ) : List ℚ :=
  ewm_mean period closes

/-- `calculate_ema(...).dropna().iloc[-1]`: an adjust-false EWM has no NaNs,
so this is the last element (`none` only for an empty series, where the
Python `iloc[-1]` raises). -/
def ema_last (period : ℕ) (closes : List ℚ) : Option ℚ :=
  (calculate_ema period closes).getLast?

/-! ## src/core/quant.py — VaR -/

/-- Linear-interpolation step used by `Series.quantile` at a (possibly
fractional) position `h` into the sorted sample `s`:
`s[⌊h⌋] + (h - ⌊h⌋) * (s[⌊h⌋+1] - s[⌊h⌋])`.  The out-of-range fallback
(`hi := lo`) is never reached for `0 ≤ h ≤ len - 1`. -/
def interp_at (s : List ℚ) (h : ℚ) : ℚ :=
  s.getD (⌊h⌋).toNat 0 +
    (h - ⌊h⌋) *
      (s.getD ((⌊h⌋).toNat + 1) (s.getD (⌊h⌋).toNat 0) - s.getD (⌊h⌋).toNat 0)

/-- `Series.quantile(q)` with the default `interpolation="linear"`: sort the
sample and linearly interpolate at position `(n - 1) * q`. -/
def quantile_linear (l : List ℚ) (q : ℚ) : ℚ :=
  interp_at (List.insertionSort (· ≤ ·) l) (q * ((l.length : ℚ) - 1))

/-- `compute_var(returns, confidence)` (quant.py lines 28-41): `None` below
`Config.MIN_OBSERVATIONS_RISK` observations, else the empirical quantile of
the returns at `1 - confidence`. -/
def compute_var (returns : List ℚ) (confidence : ℚ) : Option ℚ :=
  if returns.length < Config.MIN_OBSERVATIONS_RISK then none
  else some (quantile_linear returns (1 - confidence))

/-- `calculate_var` — the alias `StrategyEngine` imports (quant.py 320-325). -/
def calculate_var (returns : List ℚ) (confidence : ℚ) : Option ℚ :=
  compute_var returns confidence

/-! ## src/core/quant.py — Hurst (compute_hurst, lines 165-253)

The guard structure (length floor, block sizes, valid block-size points) is
exact rational arithmetic; only the final log-log regression lives in `ℝ`. -/

/-- Block sizes: powers of two `2, 4, 8, ...` up to `max(2, n // 4)`. -/
def hurst_ks (n : ℕ) : List ℕ :=
  ((List.range (max 2 (n / 4))).map (fun j => 2 ^ (j + 1))).filter
    (· ≤ max 2 (n / 4))

/-- Means of the `n_blocks` non-overlapping blocks of size `k` taken from
the front of `data` (`data[: n_blocks * k].reshape(n_blocks, k).mean(axis=1)`). -/
def block_means (k n_blocks : ℕ) (data : List ℚ) : List ℚ :=
  (List.range n_blocks).map (fun i => (((data.drop (i * k)).take k).sum) / k)

/-- `np.var(-, ddof=1)`: unbiased sample variance. -/
def sample_var (l : List ℚ) : ℚ :=
  let m := l.sum / l.length
  (l.map (fun x => (x - m) ^ 2)).sum / ((l.length : ℚ) - 1)

/-- The valid `(k, var_of_block_means)` points of the aggregated-variance
loop: block sizes with at least 2 blocks whose block-means variance is
positive. -/
def hurst_valid_pairs (returns : List ℚ) : List (ℕ × ℚ) :=
  (hurst_ks returns.length).filterMap (fun k =>
    let n_blocks := returns.length / k
    if n_blocks < 2 then none
    else
      let v := sample_var (block_means k n_blocks returns)
      if v > 0 then some (k, v) else none)

/-- Ordinary-least-squares slope, the degree-1 coefficient `np.polyfit`
returns (the design points are distinct, so the normal equations are
non-degenerate). -/
noncomputable def ols_slope (xs ys : List ℝ) : ℝ :=
  let xb := xs.sum / xs.length
  let yb := ys.sum / ys.length
  (List.zipWith (fun x y => (x - xb) * (y - yb)) xs ys).sum /
    (xs.map (fun x => (x - xb) ^ 2)).sum

/-- Slope of `log(var)` against `log(k)` over the valid points. -/
noncomputable def hurst_slope (pairs : List (ℕ × ℚ)) : ℝ :=
  ols_slope (pairs.map fun p => Real.log (p.1 : ℝ))
    (pairs.map fun p => Real.log (p.2 : ℝ))

/-- `H = np.clip(1 + slope / 2, 0.0, 1.0)`. -/
noncomputable def hurst_h (returns : List ℚ) : ℝ :=
  min 1 (max 0 (1 + hurst_slope (hurst_valid_pairs returns) / 2))

/-- Regression R² (`1 - ss_res / ss_tot` when `ss_tot > 0`, else null). -/
noncomputable def hurst_r2 (pairs : List (ℕ × ℚ)) : Option ℝ :=
  let xs := pairs.map fun p => Real.log (p.1 : ℝ)
  let ys := pairs.map fun p => Real.log (p.2 : ℝ)
  let slope := ols_slope xs ys
  let xb := xs.sum / xs.length
  let yb := ys.sum / ys.length
  let ssRes := (List.zipWith (fun x y => (y - (slope * x + (yb - slope * xb))) ^ 2) xs ys).sum
  let ssTot := (ys.map (fun y => (y - yb) ^ 2)).sum
  if ssTot > 0 then some (1 - ssRes / ssTot) else none

/-- Result dict of `compute_hurst` (the constant `hurst_method` field is
omitted). -/
structure HurstResult where
  hurst : Option ℝ
  hurst_r2 : Option ℝ
  hurst_regime : Option HurstRegime

/-- `compute_hurst(returns)` (quant.py lines 165-253): three null-returning
guards, then `H = clip(1 + slope/2, 0, 1)` classified against
`Config.HURST_MEAN_REVERTING_THRESHOLD = 0.4` and
`Config.HURST_TRENDING_THRESHOLD = 0.6`. -/
noncomputable def compute_hurst (returns : List ℚ) : HurstResult :=
  if returns.length < Config.MIN_OBSERVATIONS_VALIDATION then ⟨none, none, none⟩
  else if (hurst_ks returns.length).length < 3 then ⟨none, none, none⟩
  else if (hurst_valid_pairs returns).length < 3 then ⟨none, none, none⟩
  else
    ⟨some (hurst_h returns), hurst_r2 (hurst_valid_pairs returns),
      some (if hurst_h returns < 0.4 then HurstRegime.mean_reverting
            else if hurst_h returns > 0.6 then HurstRegime.trending
            else HurstRegime.random_like)⟩

/-- `calculate_hurst` — the alias `StrategyEngine` imports. -/
noncomputable def calculate_hurst (returns : List ℚ) : HurstResult :=
  compute_hurst returns

/-! ## src/services/strategy_engine.py -/

/-- `DEFAULT_WEIGHTS` (strategy_engine.py lines 50-55), as the ordered
key/value pairs of the Python dict. -/
def DEFAULT_WEIGHTS : List (String × ℚ) :=
  [("ml", 0.35), ("technical", 0.30), ("regime", 0.20), ("risk", 0.15)]

/-- Dict lookup `weights[key]`; `none` models the `KeyError` raised on a
missing key. -/
def weight_lookup (w : List (String × ℚ)) (k : String) : Option ℚ :=
  (w.find? (fun p => p.1 == k)).map (·.2)

/-- The engine: holds the (disclosed) blending weights. -/
structure StrategyEngine where
  weights : List (String × ℚ)
deriving DecidableEq

/-- `StrategyEngine.__init__` (lines 81-88).  `self.weights = weights or
dict(DEFAULT_WEIGHTS)` — note a `None` *or empty* mapping silently falls
back to the defaults before the sum check; `ValueError` is modelled as
`Except.error`. -/
def StrategyEngine.make (weights : Option (List (String × ℚ))) :
    Except String StrategyEngine :=
  let w := match weights with
    | none => DEFAULT_WEIGHTS
    | some l => if l.isEmpty then DEFAULT_WEIGHTS else l
  if math_isclose ((w.map Prod.snd).sum) 1 then Except.ok ⟨w⟩
  else Except.error "Weights must sum to 1.0"

/-- `_ml_signal` score (lines 238-287):
`clip((predicted_close / current_price - 1) * 10, -1, 1)`, or 0 when the
forecast is absent or the price non-positive. -/
def ml_signal_score (forecast : Option ForecastResult) (current_price : ℚ) : ℚ :=
  match forecast with
  | none => 0
  | some f =>
    if current_price ≤ 0 then 0
    else np_clip ((f.predicted_close / current_price - 1) * 10) (-1) 1

/-- `_technical_signal` composite score (lines 289-415).  Each sub-indicator
is attempted; a pandas exception (empty `dropna()` in `iloc[-1]`) skips that
sub-score.  The composite is the mean of the available sub-scores, else 0. -/
def technical_signal (closes : List ℚ) (current_price : ℚ) : ℚ :=
  let rsi_score : Option ℚ := (rsi_last 14 closes).map (fun r =>
    if r < 30 then 1
    else if r > 70 then -1
    else 1 + (r - 30) / 40 * (-2))
  let macd_score : Option ℚ := ((calculate_macd 12 26 9 closes).2.2.getLast?).map
    (fun hist =>
      np_clip (if current_price > 0 then hist / current_price * 100 else 0) (-1) 1)
  let ema_score : Option ℚ := (ema_last 50 closes).map (fun e =>
    if current_price > 0 ∧ e > 0 then np_clip ((current_price - e) / e * 10) (-1) 1
    else 0)
  let sub_scores := [rsi_score, macd_score, ema_score].filterMap id
  if sub_scores.isEmpty then 0 else sub_scores.sum / sub_scores.length

/-- `_regime_signal` (lines 417-475), reduced to the data the engine keeps:
the score and the regime label.  A supplied validation result with a
non-null `hurst` takes precedence; otherwise `calculate_hurst` runs
internally.  Null hurst or null regime ⇒ neutral 0 with no label. -/
noncomputable def regime_signal (returns : List ℚ)
    (validation : Option StatisticalValidationResult) : ℚ × Option HurstRegime :=
  let hr : Option ℝ × Option HurstRegime :=
    match validation with
    | some v =>
      match v.hurst with
      | some h => (some ((h : ℝ)), v.hurst_regime)
      | none => ((calculate_hurst returns).hurst, (calculate_hurst returns).hurst_regime)
    | none => ((calculate_hurst returns).hurst, (calculate_hurst returns).hurst_regime)
  match hr with
  | (some _, some HurstRegime.trending) => (0.5, some HurstRegime.trending)
  | (some _, some HurstRegime.mean_reverting) => (-0.3, some HurstRegime.mean_reverting)
  | (some _, some HurstRegime.random_like) => (0, some HurstRegime.random_like)
  | _ => (0, none)

/-- `np.interp(abs_var, [0.0, 0.05, 0.10], [0.5, 0.0, -1.0])` (line 515). -/
def np_interp_risk (x : ℚ) : ℚ :=
  if x < 0 then 0.5
  else if x ≤ 0.05 then 0.5 - 10 * x
  else if x ≤ 0.10 then -20 * (x - 0.05)
  else -1

/-- The `var_pct` resolution step of `_risk_signal` (lines 492-497): the
snapshot's `var_95_pct` when supplied and non-null, else `calculate_var` on
the returns. -/
def resolve_var_95 (returns : List ℚ)
    (risk_snapshot : Option RiskMetricsSnapshot) : Option ℚ :=
  match risk_snapshot with
  | some s =>
    match s.var_95_pct with
    | some v => some v
    | none => calculate_var returns 0.95
  | none => calculate_var returns 0.95

/-- `_risk_signal` (lines 477-540): unavailable VaR ⇒ (0, None); else the
piecewise-linear risk score and `risk_distance = clip(|VaR|, 0.005, 0.10)`. -/
def risk_signal (returns : List ℚ)
    (risk_snapshot : Option RiskMetricsSnapshot) : ℚ × Option ℚ :=
  match resolve_var_95 returns risk_snapshot with
  | none => (0, none)
  | some v => (np_interp_risk |v|, some (np_clip |v| 0.005 0.10))

/-- The conviction `alignment` (lines 152-158): with `blended_sign = 1` when
`blended ≥ 0` else `-1` (inlined below), count the sub-scores `s` with
`(s ≥ 0 and blended_sign ≥ 0) or (s < 0 and blended_sign < 0)`, over 4. -/
def alignment_of (scores : List ℚ) (blended : ℚ) : ℚ :=
  (scores.countP (fun s =>
    decide ((s ≥ 0 ∧ (if blended ≥ 0 then (1 : ℤ) else -1) ≥ 0) ∨
      (s < 0 ∧ (if blended ≥ 0 then (1 : ℤ) else -1) < 0))) : ℚ) / 4

/-- Conviction (lines 159-160): `round(100 * min(1, |blended|) * alignment)`
clamped into `[0, 100]`. -/
def conviction_of (blended alignment : ℚ) : ℤ :=
  max 0 (min 100 (roundHalfEven (100 * min 1 |blended| * alignment)))

/-- Action thresholds (lines 162-168): `_BUY_THRESHOLD = 0.20`,
`_SELL_THRESHOLD = -0.20`, `_MIN_CONVICTION = 30`. -/
def action_of (blended : ℚ) (conviction : ℤ) : StrategyAction :=
  if blended ≥ 0.20 ∧ conviction ≥ 30 then StrategyAction.buy
  else if blended ≤ -0.20 ∧ conviction ≥ 30 then StrategyAction.sell
  else StrategyAction.hold

/-- `_compute_target` (lines 546-591).  Python truthiness of `ml_price`
(`None` or `0.0` falls back to the cap) is modelled literally; the
`except` branch of the EMA lookup (empty series) falls back to the current
price. -/
noncomputable def compute_target (action : StrategyAction) (current_price risk_distance : ℚ)
    (regime : Option HurstRegime) (forecast : Option ForecastResult)
    (closes : List ℚ) : ℚ :=
  let ml_price : Option ℚ := forecast.map (·.predicted_close)
  let target :=
    if regime = some HurstRegime.trending ∨ regime = none then
      if action = StrategyAction.buy then
        let cap := current_price * (1 + 4 * risk_distance)
        match ml_price with
        | some m => if m ≠ 0 then min m cap else cap
        | none => cap
      else
        let lo := current_price * (1 - 4 * risk_distance)
        match ml_price with
        | some m => if m ≠ 0 then max m lo else lo
        | none => lo
    else
      let ema_val := (ema_last 50 closes).getD current_price
      if action = StrategyAction.buy then
        if ema_val > current_price then ema_val
        else current_price * (1 + 1.5 * risk_distance)
      else
        if ema_val < current_price then ema_val
        else current_price * (1 - 1.5 * risk_distance)
  roundTo 4 target

/-- The non-null level block of a recommendation. -/
structure Levels where
  entry_lower : ℚ
  entry_upper : ℚ
  stop_loss : ℚ
  target_exit : ℚ
  rd_pct : ℚ
deriving DecidableEq

/-- Entry zone / stop-loss / target / risk-distance-pct (lines 170-197):
computed only when `action != HOLD and risk_distance is not None`, with
every price rounded to 4 decimals. -/
noncomputable def levels_of (action : StrategyAction) (current_price : ℚ)
    (risk_distance : Option ℚ) (regime : Option HurstRegime)
    (forecast : Option ForecastResult) (closes : List ℚ) : Option Levels :=
  match action, risk_distance with
  | StrategyAction.hold, _ => none
  | _, none => none
  | a, some rd =>
    if a = StrategyAction.buy then
      some { entry_lower := roundTo 4 (current_price * (1 - rd))
             entry_upper := roundTo 4 (current_price * (1 + 0.25 * rd))
             stop_loss := roundTo 4 (roundTo 4 (current_price * (1 - rd)) * (1 - rd))
             target_exit := compute_target a current_price rd regime forecast closes
             rd_pct := roundTo 4 (rd * 100) }
    else
      some { entry_lower := roundTo 4 (current_price * (1 - 0.25 * rd))
             entry_upper := roundTo 4 (current_price * (1 + rd))
             stop_loss := roundTo 4 (roundTo 4 (current_price * (1 + rd)) * (1 + rd))
             target_exit := compute_target a current_price rd regime forecast closes
             rd_pct := roundTo 4 (rd * 100) }

/-- `_raw_inputs_snapshot` (lines 637-660), flattened: the nested
`"scores"` dict becomes the first five fields.  Note the `weights` entry is
`dict(DEFAULT_WEIGHTS)`, not the engine's configured weights, and
`round(risk_distance, 6) if risk_distance else None` uses Python truthiness. -/
structure RawInputs where
  ml : ℚ
  technical : ℚ
  regime : ℚ
  risk : ℚ
  blended : ℚ
  alignment : ℚ
  risk_distance : Option ℚ
  regime_label : Option String
  weights : List (String × ℚ)
deriving DecidableEq

def raw_inputs_snapshot (ml_score tech_score regime_score risk_score blended alignment : ℚ)
    (risk_distance : Option ℚ) (regime : Option HurstRegime) : RawInputs :=
  { ml := roundTo 4 ml_score
    technical := roundTo 4 tech_score
    regime := roundTo 4 regime_score
    risk := roundTo 4 risk_score
    blended := roundTo 4 blended
    alignment := roundTo 4 alignment
    risk_distance := match risk_distance with
      | some r => if r ≠ 0 then some (roundTo 6 r) else none
      | none => none
    regime_label := regime.map HurstRegime.value
    weights := DEFAULT_WEIGHTS }

/-- `StrategyRecommendation` (schemas.py lines 386-407); the evidence lists
and logic-summary string are display-only and not modelled. -/
structure StrategyRecommendation where
  symbol : String
  as_of_date : ℤ
  action : StrategyAction
  conviction : ℤ
  regime : Option HurstRegime
  entry_zone_lower : Option ℚ
  entry_zone_upper : Option ℚ
  target_exit : Option ℚ
  stop_loss : Option ℚ
  risk_distance_pct : Option ℚ
  raw_inputs : RawInputs
deriving DecidableEq

/-! Stage composites: the named intermediate values of
`compute_recommendation` (lines 117-160).  They are spelled as standalone
definitions so that each theorem can refer to exactly the value the code
computes. -/

def ml_score_of (s : PriceSeries) (forecast : Option ForecastResult) : ℚ :=
  ml_signal_score forecast (latest_close s)

def tech_score_of (s : PriceSeries) : ℚ :=
  technical_signal (sorted_closes s) (latest_close s)

noncomputable def regime_pair (s : PriceSeries)
    (validation : Option StatisticalValidationResult) : ℚ × Option HurstRegime :=
  regime_signal (get_returns s) validation

def risk_pair (s : PriceSeries) (risk_snapshot : Option RiskMetricsSnapshot) :
    ℚ × Option ℚ :=
  risk_signal (get_returns s) risk_snapshot

noncomputable def scores_of (s : PriceSeries) (forecast : Option ForecastResult)
    (risk_snapshot : Option RiskMetricsSnapshot)
    (validation : Option StatisticalValidationResult) : List ℚ :=
  [ml_score_of s forecast, tech_score_of s, (regime_pair s validation).1,
    (risk_pair s risk_snapshot).1]

/-- The blend (lines 143-149): `Σ self.weights[k] * score_k`. -/
noncomputable def blended_of (w_ml w_technical w_regime w_risk : ℚ) (s : PriceSeries)
    (forecast : Option ForecastResult) (risk_snapshot : Option RiskMetricsSnapshot)
    (validation : Option StatisticalValidationResult) : ℚ :=
  w_ml * ml_score_of s forecast + w_technical * tech_score_of s +
    w_regime * (regime_pair s validation).1 + w_risk * (risk_pair s risk_snapshot).1

noncomputable def conviction_full (w_ml w_technical w_regime w_risk : ℚ) (s : PriceSeries)
    (forecast : Option ForecastResult) (risk_snapshot : Option RiskMetricsSnapshot)
    (validation : Option StatisticalValidationResult) : ℤ :=
  conviction_of (blended_of w_ml w_technical w_regime w_risk s forecast risk_snapshot validation)
    (alignment_of (scores_of s forecast risk_snapshot validation)
      (blended_of w_ml w_technical w_regime w_risk s forecast risk_snapshot validation))

noncomputable def action_full (w_ml w_technical w_regime w_risk : ℚ) (s : PriceSeries)
    (forecast : Option ForecastResult) (risk_snapshot : Option RiskMetricsSnapshot)
    (validation : Option StatisticalValidationResult) : StrategyAction :=
  action_of (blended_of w_ml w_technical w_regime w_risk s forecast risk_snapshot validation)
    (conviction_full w_ml w_technical w_regime w_risk s forecast risk_snapshot validation)

noncomputable def levels_full (w_ml w_technical w_regime w_risk : ℚ) (s : PriceSeries)
    (forecast : Option ForecastResult) (risk_snapshot : Option RiskMetricsSnapshot)
    (validation : Option StatisticalValidationResult) : Option Levels :=
  levels_of (action_full w_ml w_technical w_regime w_risk s forecast risk_snapshot validation)
    (latest_close s) (risk_pair s risk_snapshot).2 (regime_pair s validation).2
    forecast (sorted_closes s)

/-- Body of `compute_recommendation` once the four weights have been looked
up and the series is known non-empty. -/
noncomputable def recommendation_core (w_ml w_technical w_regime w_risk : ℚ)
    (s : PriceSeries) (forecast : Option ForecastResult)
    (risk_snapshot : Option RiskMetricsSnapshot)
    (validation : Option StatisticalValidationResult) : StrategyRecommendation :=
  { symbol := s.symbol.toUpper
    as_of_date := latest_date s
    action := action_full w_ml w_technical w_regime w_risk s forecast risk_snapshot validation
    conviction := conviction_full w_ml w_technical w_regime w_risk s forecast risk_snapshot validation
    regime := (regime_pair s validation).2
    entry_zone_lower :=
      (levels_full w_ml w_technical w_regime w_risk s forecast risk_snapshot validation).map (·.entry_lower)
    entry_zone_upper :=
      (levels_full w_ml w_technical w_regime w_risk s forecast risk_snapshot validation).map (·.entry_upper)
    target_exit :=
      (levels_full w_ml w_technical w_regime w_risk s forecast risk_snapshot validation).map (·.target_exit)
    stop_loss :=
      (levels_full w_ml w_technical w_regime w_risk s forecast risk_snapshot validation).map (·.stop_loss)
    risk_distance_pct :=
      (levels_full w_ml w_technical w_regime w_risk s forecast risk_snapshot validation).map (·.rd_pct)
    raw_inputs := raw_inputs_snapshot (ml_score_of s forecast) (tech_score_of s)
      (regime_pair s validation).1 (risk_pair s risk_snapshot).1
      (blended_of w_ml w_technical w_regime w_risk s forecast risk_snapshot validation)
      (alignment_of (scores_of s forecast risk_snapshot validation)
        (blended_of w_ml w_technical w_regime w_risk s forecast risk_snapshot validation))
      (risk_pair s risk_snapshot).2 (regime_pair s validation).2 }

/-- `StrategyEngine.compute_recommendation` (lines 94-232).  `none` models
the exceptions a call can raise before producing a recommendation: a
`KeyError` on a weights dict missing one of the four keys, or `max()` on an
empty bar list (pydantic rules the latter out). -/
noncomputable def StrategyEngine.compute_recommendation (e : StrategyEngine)
    (series : PriceSeries) (forecast : Option ForecastResult)
    (risk_snapshot : Option RiskMetricsSnapshot)
    (validation : Option StatisticalValidationResult) : Option StrategyRecommendation :=
  match series.bars with
  | [] => none
  | _ :: _ =>
    (weight_lookup e.weights "ml").bind fun w_ml =>
    (weight_lookup e.weights "technical").bind fun w_technical =>
    (weight_lookup e.weights "regime").bind fun w_regime =>
    (weight_lookup e.weights "risk").map fun w_risk =>
      recommendation_core w_ml w_technical w_regime w_risk series forecast
        risk_snapshot validation

/-- Lifts a property of the produced recommendation over the `Option`
modelling pre-recommendation exceptions. -/
def recProp (P : StrategyRecommendation → Prop) : Option StrategyRecommendation → Prop
  | none => True
  | some r => P r

/-- The engine built by `StrategyEngine()` — all-default weights. -/
def default_engine : StrategyEngine := ⟨DEFAULT_WEIGHTS⟩

/-! ## Helper lemmas: banker's rounding -/

theorem roundHalfEven_eq_low (m : ℤ) (q : ℚ) (h1 : (m : ℚ) ≤ q)
    (h2 : q < (m : ℚ) + 1 / 2) : roundHalfEven q = m := by
  have hf : ⌊q⌋ = m := Int.floor_eq_iff.mpr ⟨h1, by linarith⟩
  unfold roundHalfEven
  rw [hf, if_pos (by linarith)]

theorem roundHalfEven_eq_high (m : ℤ) (q : ℚ) (h1 : (m : ℚ) + 1 / 2 < q)
    (h2 : q < (m : ℚ) + 1) : roundHalfEven q = m + 1 := by
  have hf : ⌊q⌋ = m := Int.floor_eq_iff.mpr ⟨by linarith, h2⟩
  unfold roundHalfEven
  rw [hf, if_neg (by linarith), if_pos (by linarith)]

theorem roundHalfEven_tie (m : ℤ) (q : ℚ) (h : q = (m : ℚ) + 1 / 2) :
    roundHalfEven q = if m % 2 = 0 then m else m + 1 := by
  have hf : ⌊q⌋ = m := Int.floor_eq_iff.mpr ⟨by linarith, by linarith⟩
  unfold roundHalfEven
  rw [hf, if_neg (by linarith), if_neg (by linarith)]

theorem roundHalfEven_intCast (m : ℤ) : roundHalfEven (m : ℚ) = m := by
  unfold roundHalfEven
  rw [Int.floor_intCast, if_pos (by norm_num)]

theorem roundHalfEven_ge_floor (q : ℚ) : ⌊q⌋ ≤ roundHalfEven q := by
  unfold roundHalfEven
  split_ifs <;> omega

theorem roundHalfEven_le_floor_add_one (q : ℚ) : roundHalfEven q ≤ ⌊q⌋ + 1 := by
  unfold roundHalfEven
  split_ifs <;> omega

theorem roundHalfEven_mono {x y : ℚ} (h : x ≤ y) :
    roundHalfEven x ≤ roundHalfEven y := by
  rcases lt_or_le ⌊x⌋ ⌊y⌋ with hf | hf
  · have h1 := roundHalfEven_le_floor_add_one x
    have h2 := roundHalfEven_ge_floor y
    omega
  · have hfe : ⌊x⌋ = ⌊y⌋ := le_antisymm (Int.floor_le_floor h) hf
    have hc : ((⌊x⌋ : ℚ)) = ((⌊y⌋ : ℚ)) := by exact_mod_cast hfe
    by_cases hx : x - (⌊x⌋ : ℚ) < 1 / 2
    · have h2 := roundHalfEven_ge_floor y
      have hxv : roundHalfEven x = ⌊x⌋ := by
        unfold roundHalfEven; rw [if_pos hx]
      omega
    · have hyge : ¬(y - (⌊y⌋ : ℚ) < 1 / 2) := by
        push_neg at hx ⊢; linarith
      by_cases hx2 : x - (⌊x⌋ : ℚ) > 1 / 2
      · have hy2 : y - (⌊y⌋ : ℚ) > 1 / 2 := by linarith
        have hxv : roundHalfEven x = ⌊x⌋ + 1 := by
          unfold roundHalfEven; rw [if_neg hx, if_pos hx2]
        have hyv : roundHalfEven y = ⌊y⌋ + 1 := by
          unfold roundHalfEven; rw [if_neg hyge, if_pos hy2]
        omega
      · by_cases hy2 : y - (⌊y⌋ : ℚ) > 1 / 2
        · have hyv : roundHalfEven y = ⌊y⌋ + 1 := by
            unfold roundHalfEven; rw [if_neg hyge, if_pos hy2]
          have h1 := roundHalfEven_le_floor_add_one x
          omega
        · have hxe : x = y := by
            have e1 : x - (⌊x⌋ : ℚ) = 1 / 2 :=
              le_antisymm (not_lt.mp hx2) (not_lt.mp hx)
            have e2 : y - (⌊y⌋ : ℚ) = 1 / 2 :=
              le_antisymm (not_lt.mp hy2) (not_lt.mp hyge)
            linarith
          rw [hxe]

theorem roundTo_mono (n : ℕ) {x y : ℚ} (h : x ≤ y) : roundTo n x ≤ roundTo n y := by
  unfold roundTo
  have h1 : roundHalfEven (x * 10 ^ n) ≤ roundHalfEven (y * 10 ^ n) :=
    roundHalfEven_mono (mul_le_mul_of_nonneg_right h (by positivity))
  have h2 : ((roundHalfEven (x * 10 ^ n) : ℚ)) ≤ (roundHalfEven (y * 10 ^ n) : ℚ) := by
    exact_mod_cast h1
  exact (div_le_div_iff_of_pos_right (by positivity)).mpr h2

theorem roundTo_idem (n : ℕ) (q : ℚ) : roundTo n (roundTo n q) = roundTo n q := by
  unfold roundTo
  rw [div_mul_cancel₀ _ (by positivity : ((10 : ℚ) ^ n) ≠ 0), roundHalfEven_intCast]

theorem roundTo_zero (n : ℕ) : roundTo n 0 = 0 := by
  unfold roundTo
  rw [zero_mul, roundHalfEven_eq_low 0 0 (by norm_num) (by norm_num)]
  norm_num

theorem roundTo_nonneg (n : ℕ) {q : ℚ} (h : 0 ≤ q) : 0 ≤ roundTo n q := by
  have := roundTo_mono n h
  rwa [roundTo_zero] at this

/-! ## Helper lemmas: the empirical quantile is monotone in its position -/

theorem sorted_getD_le (s : List ℚ) (hs : List.Sorted (· ≤ ·) s) {i j : ℕ}
    (hij : i ≤ j) (hj : j < s.length) (d d' : ℚ) : s.getD i d ≤ s.getD j d' := by
  have hi : i < s.length := lt_of_le_of_lt hij hj
  have h1 : s.getD i d = s.get ⟨i, hi⟩ := by
    simp [List.getD_eq_getElem?_getD, List.getElem?_eq_getElem hi]
  have h2 : s.getD j d' = s.get ⟨j, hj⟩ := by
    simp [List.getD_eq_getElem?_getD, List.getElem?_eq_getElem hj]
  rw [h1, h2]
  exact hs.rel_get_of_le hij

theorem interp_at_mono (s : List ℚ) (hs : List.Sorted (· ≤ ·) s) {h1 h2 : ℚ}
    (h0 : 0 ≤ h1) (h12 : h1 ≤ h2) (hn : h2 ≤ (s.length : ℚ) - 1) :
    interp_at s h1 ≤ interp_at s h2 := by
  have hf1 : (0 : ℤ) ≤ ⌊h1⌋ := Int.floor_nonneg.mpr h0
  have hf2 : (0 : ℤ) ≤ ⌊h2⌋ := Int.floor_nonneg.mpr (le_trans h0 h12)
  have hi2 : (⌊h2⌋ : ℚ) ≤ (s.length : ℚ) - 1 := le_trans (Int.floor_le h2) hn
  have hi2' : (⌊h2⌋).toNat < s.length := by
    have : ⌊h2⌋ ≤ (s.length : ℤ) - 1 := by exact_mod_cast hi2
    omega
  have hfr1 : 0 ≤ h1 - (⌊h1⌋ : ℚ) := by
    have := Int.floor_le h1; linarith
  have hfr1' : h1 - (⌊h1⌋ : ℚ) < 1 := by
    have := Int.lt_floor_add_one h1; linarith
  have hfr2 : 0 ≤ h2 - (⌊h2⌋ : ℚ) := by
    have := Int.floor_le h2; linarith
  unfold interp_at
  rcases eq_or_lt_of_le (Int.floor_le_floor h12) with hfe | hflt
  · -- same floor: interpolate within one segment
    rw [hfe]
    set i := (⌊h2⌋).toNat with hidef
    have hd : s.getD i 0 ≤ s.getD (i + 1) (s.getD i 0) := by
      rcases lt_or_le (i + 1) s.length with hin | hout
      · exact sorted_getD_le s hs (Nat.le_succ i) hin _ _
      · rw [List.getD_eq_default _ _ hout]
    have hfr12 : h1 - (⌊h2⌋ : ℚ) ≤ h2 - (⌊h2⌋ : ℚ) := by linarith
    have hm : (h1 - (⌊h2⌋ : ℚ)) * (s.getD (i + 1) (s.getD i 0) - s.getD i 0) ≤
        (h2 - (⌊h2⌋ : ℚ)) * (s.getD (i + 1) (s.getD i 0) - s.getD i 0) := by
      apply mul_le_mul_of_nonneg_right hfr12 (by linarith)
    linarith
  · -- different floors: chain through the segment boundaries
    set i1 := (⌊h1⌋).toNat with hi1def
    set i2 := (⌊h2⌋).toNat with hi2def
    have hi12 : i1 + 1 ≤ i2 := by omega
    have hi1in : i1 + 1 < s.length := lt_of_le_of_lt hi12 hi2'
    have hlo1hi1 : s.getD i1 0 ≤ s.getD (i1 + 1) (s.getD i1 0) :=
      sorted_getD_le s hs (Nat.le_succ i1) hi1in _ _
    have hv1 : s.getD i1 0 + (h1 - (⌊h1⌋ : ℚ)) * (s.getD (i1 + 1) (s.getD i1 0) - s.getD i1 0) ≤
        s.getD (i1 + 1) (s.getD i1 0) := by
      nlinarith
    have hchain : s.getD (i1 + 1) (s.getD i1 0) ≤ s.getD i2 0 :=
      sorted_getD_le s hs hi12 hi2' _ _
    have hd2 : s.getD i2 0 ≤ s.getD (i2 + 1) (s.getD i2 0) := by
      rcases lt_or_le (i2 + 1) s.length with hin | hout
      · exact sorted_getD_le s hs (Nat.le_succ i2) hin _ _
      · rw [List.getD_eq_default _ _ hout]
    have hv2 : s.getD i2 0 ≤
        s.getD i2 0 + (h2 - (⌊h2⌋ : ℚ)) * (s.getD (i2 + 1) (s.getD i2 0) - s.getD i2 0) := by
      nlinarith
    linarith

/-! ## Concrete inputs used by counterexamples and witnesses -/

/-- A minimal rising series: two valid bars, closes 100 then 110. -/
def two_bar_series : PriceSeries :=
  { symbol := "TEST"
    bars := [⟨0, 100, 101, 99, 100, none, none⟩, ⟨1, 110, 111, 109, 110, none, none⟩] }

/-- A valid series trading at 0.01 (EGX pennies): two flat bars. -/
def penny_series : PriceSeries :=
  { symbol := "PENNY"
    bars := [⟨0, 1 / 100, 1 / 100, 1 / 100, 1 / 100, none, none⟩,
             ⟨1, 1 / 100, 1 / 100, 1 / 100, 1 / 100, none, none⟩] }

/-! ## Evaluation lemmas on the concrete inputs -/

theorem two_bar_latest_close : latest_close two_bar_series = 110 := by
  norm_num [latest_close, get_latest_bar, two_bar_series]

theorem two_bar_sorted_closes : sorted_closes two_bar_series = [100, 110] := by
  norm_num [sorted_closes, sorted_bars, two_bar_series, List.insertionSort,
    List.orderedInsert]

theorem two_bar_returns : get_returns two_bar_series = [1 / 10] := by
  rw [get_returns, two_bar_sorted_closes]
  norm_num [simple_returns]

theorem two_bar_tech : tech_score_of two_bar_series = 1519385 / 1976832 := by
  rw [tech_score_of, two_bar_sorted_closes, two_bar_latest_close]
  norm_num [technical_signal, rsi_last, rolling_mean, calculate_macd, ewm_mean,
    ewm_go, ema_last, calculate_ema, np_clip, List.range_succ,
    List.filterMap_cons, List.filterMap_nil]

theorem penny_latest_close : latest_close penny_series = 1 / 100 := by
  norm_num [latest_close, get_latest_bar, penny_series]

theorem penny_sorted_closes : sorted_closes penny_series = [1 / 100, 1 / 100] := by
  norm_num [sorted_closes, sorted_bars, penny_series, List.insertionSort,
    List.orderedInsert]

theorem penny_tech : tech_score_of penny_series = 0 := by
  rw [tech_score_of, penny_sorted_closes, penny_latest_close]
  norm_num [technical_signal, rsi_last, rolling_mean, calculate_macd, ewm_mean,
    ewm_go, ema_last, calculate_ema, np_clip, List.range_succ,
    List.filterMap_cons, List.filterMap_nil]

/-- Splitting principle: to establish a property of whatever recommendation
`compute_recommendation` produces, it suffices to establish it of the core
at the engine's looked-up weights. -/
theorem recProp_compute (e : StrategyEngine) (s : PriceSeries)
    (f : Option ForecastResult) (rs : Option RiskMetricsSnapshot)
    (vr : Option StatisticalValidationResult) (P : StrategyRecommendation → Prop)
    (h : ∀ w_ml w_technical w_regime w_risk,
      weight_lookup e.weights "ml" = some w_ml →
      weight_lookup e.weights "technical" = some w_technical →
      weight_lookup e.weights "regime" = some w_regime →
      weight_lookup e.weights "risk" = some w_risk →
      P (recommendation_core w_ml w_technical w_regime w_risk s f rs vr)) :
    recProp P (e.compute_recommendation s f rs vr) := by
  unfold StrategyEngine.compute_recommendation
  split
  · simp [recProp]
  · rcases hml : weight_lookup e.weights "ml" with _ | w_ml
    · simp [recProp]
    rcases hmt : weight_lookup e.weights "technical" with _ | w_technical
    · simp [recProp]
    rcases hmg : weight_lookup e.weights "regime" with _ | w_regime
    · simp [recProp]
    rcases hmr : weight_lookup e.weights "risk" with _ | w_risk
    · simp [recProp]
    simp only [Option.some_bind, Option.map_some]
    exact h w_ml w_technical w_regime w_risk hml hmt hmg hmr

/-- Evaluation of `compute_recommendation` for the default engine on a
non-empty series. -/
theorem compute_recommendation_default (s : PriceSeries) (b : PriceBar)
    (rest : List PriceBar) (hbs : s.bars = b :: rest) (f : Option ForecastResult)
    (rs : Option RiskMetricsSnapshot) (vr : Option StatisticalValidationResult) :
    default_engine.compute_recommendation s f rs vr =
      some (recommendation_core 0.35 0.30 0.20 0.15 s f rs vr) := by
  unfold StrategyEngine.compute_recommendation
  rw [hbs]
  simp +decide [weight_lookup, DEFAULT_WEIGHTS, default_engine, List.find?]

/-- A non-HOLD action certifies both thresholds: `|blended| ≥ 0.20` and
`conviction ≥ 30` (lines 162-168). -/
theorem action_of_ne_hold {b : ℚ} {c : ℤ} (h : action_of b c ≠ StrategyAction.hold) :
    1 / 5 ≤ |b| ∧ 30 ≤ c := by
  unfold action_of at h
  split_ifs at h with h1 h2
  · refine ⟨?_, h1.2⟩
    rw [abs_of_nonneg (by linarith [h1.1])]
    linarith [h1.1]
  · refine ⟨?_, h2.2⟩
    rw [abs_of_nonpos (by linarith [h2.1])]
    linarith [h2.1]
  · exact absurd rfl h

/-- With no forecast the ML score is literally zero, so the blend carries
only the technical, regime, and risk terms. -/
theorem blended_of_no_forecast (w_ml w_technical w_regime w_risk : ℚ)
    (s : PriceSeries) (rs : Option RiskMetricsSnapshot)
    (vr : Option StatisticalValidationResult) :
    blended_of w_ml w_technical w_regime w_risk s none rs vr =
      w_technical * tech_score_of s + w_regime * (regime_pair s vr).1 +
        w_risk * (risk_pair s rs).1 := by
  rw [blended_of, show ml_score_of s none = 0 from rfl]
  ring

/-- C1, counterexample.  The claim says an absent forecast forces HOLD for
every accepted price series.  On the two-bar rising series, with a supplied
trending validation result and a low-risk snapshot (VaR95 = -0.5%), the
engine instead returns BUY: technical ≈ 0.769, regime 0.5, risk 0.45 blend
to ≈ 0.398 ≥ 0.20 with conviction 40 ≥ 30, no forecast involved. -/
theorem C1_counterexample :
    (default_engine.compute_recommendation two_bar_series none
        (some ⟨some (-(1 / 200))⟩)
        (some ⟨some (7 / 10), some HurstRegime.trending⟩)).map
      StrategyRecommendation.action = some StrategyAction.buy := by
  rw [compute_recommendation_default two_bar_series _ _ rfl]
  have hrg : regime_pair two_bar_series
      (some ⟨some (7 / 10), some HurstRegime.trending⟩) =
      (1 / 2, some HurstRegime.trending) := by
    norm_num [regime_pair, regime_signal]
  have habs : |(-(1 / 200) : ℚ)| = 1 / 200 := by
    rw [abs_of_neg (by norm_num)]
    norm_num
  have hrk : risk_pair two_bar_series (some ⟨some (-(1 / 200))⟩) =
      (9 / 20, some (1 / 200)) := by
    rw [risk_pair, risk_signal]
    norm_num [resolve_var_95, np_interp_risk, np_clip, habs]
  have hml : ml_score_of two_bar_series none = 0 := rfl
  have hb : blended_of 0.35 0.30 0.20 0.15 two_bar_series none
      (some ⟨some (-(1 / 200))⟩) (some ⟨some (7 / 10), some HurstRegime.trending⟩) =
      13115581 / 32947200 := by
    rw [blended_of, hml, two_bar_tech, hrg, hrk]
    norm_num
  have halign : alignment_of
      (scores_of two_bar_series none (some ⟨some (-(1 / 200))⟩)
        (some ⟨some (7 / 10), some HurstRegime.trending⟩)) (13115581 / 32947200) = 1 := by
    rw [scores_of, hml, two_bar_tech, hrg, hrk]
    norm_num [alignment_of, List.countP_cons, List.countP_nil]
  have hconv : conviction_of (13115581 / 32947200) 1 = 40 := by
    rw [conviction_of]
    have h1 : (100 : ℚ) * min 1 |13115581 / 32947200| * 1 = 1311558100 / 32947200 := by
      rw [abs_of_nonneg (by norm_num), min_eq_right (by norm_num)]
      ring
    rw [h1, roundHalfEven_eq_high 39 _ (by norm_num) (by norm_num)]
    norm_num
  have hact : action_full 0.35 0.30 0.20 0.15 two_bar_series none
      (some ⟨some (-(1 / 200))⟩) (some ⟨some (7 / 10), some HurstRegime.trending⟩) =
      StrategyAction.buy := by
    rw [action_full, conviction_full, hb, halign, hconv, action_of]
    rw [if_pos ⟨by norm_num, by norm_num⟩]
  have hproj : (recommendation_core 0.35 0.30 0.20 0.15 two_bar_series none
      (some ⟨some (-(1 / 200))⟩)
      (some ⟨some (7 / 10), some HurstRegime.trending⟩)).action =
      action_full 0.35 0.30 0.20 0.15 two_bar_series none
        (some ⟨some (-(1 / 200))⟩)
        (some ⟨some (7 / 10), some HurstRegime.trending⟩) := rfl
  simp only [Option.map_some']
  rw [hproj, hact]

/-- C1, amended.  When the forecast input is absent the ML score is exactly
0 (neutral, also in the audit snapshot), and the action defaults to HOLD
*unless* the technical, regime, and risk signals alone clear the action
thresholds: any non-HOLD action certifies `conviction ≥ 30` and a remaining
blend of magnitude ≥ 0.20. -/
theorem C1_amended (e : StrategyEngine) (s : PriceSeries)
    (rs : Option RiskMetricsSnapshot) (vr : Option StatisticalValidationResult) :
    recProp (fun rec =>
      rec.raw_inputs.ml = 0 ∧
      (rec.action ≠ StrategyAction.hold → 30 ≤ rec.conviction ∧
        ∀ w_ml w_technical w_regime w_risk,
          weight_lookup e.weights "ml" = some w_ml →
          weight_lookup e.weights "technical" = some w_technical →
          weight_lookup e.weights "regime" = some w_regime →
          weight_lookup e.weights "risk" = some w_risk →
          1 / 5 ≤ |w_technical * tech_score_of s + w_regime * (regime_pair s vr).1 +
            w_risk * (risk_pair s rs).1|))
      (e.compute_recommendation s none rs vr) := by
  apply recProp_compute
  intro w_ml w_technical w_regime w_risk hml hmt hmg hmr
  constructor
  · have h1 : (recommendation_core w_ml w_technical w_regime w_risk s none rs vr).raw_inputs.ml =
        roundTo 4 (ml_score_of s none) := rfl
    rw [h1, show ml_score_of s none = 0 from rfl, roundTo_zero]
  · intro hna
    have hact : (recommendation_core w_ml w_technical w_regime w_risk s none rs vr).action =
        action_of (blended_of w_ml w_technical w_regime w_risk s none rs vr)
          (conviction_full w_ml w_technical w_regime w_risk s none rs vr) := rfl
    rw [hact] at hna
    obtain ⟨hth, hcv⟩ := action_of_ne_hold hna
    constructor
    · exact hcv
    · intro w1 w2 w3 w4 e1 e2 e3 e4
      have q1 : w1 = w_ml := by rw [hml] at e1; exact (Option.some_inj.mp e1).symm
      have q2 : w2 = w_technical := by rw [hmt] at e2; exact (Option.some_inj.mp e2).symm
      have q3 : w3 = w_regime := by rw [hmg] at e3; exact (Option.some_inj.mp e3).symm
      have q4 : w4 = w_risk := by rw [hmr] at e4; exact (Option.some_inj.mp e4).symm
      rw [q2, q3, q4, ← blended_of_no_forecast w_ml]
      exact hth

/-- C1, amended, witness: the amended statement instantiated at the inputs
of the counterexample run. -/
theorem C1_amended_witness :
    recProp (fun rec =>
      rec.raw_inputs.ml = 0 ∧
      (rec.action ≠ StrategyAction.hold → 30 ≤ rec.conviction ∧
        ∀ w_ml w_technical w_regime w_risk,
          weight_lookup default_engine.weights "ml" = some w_ml →
          weight_lookup default_engine.weights "technical" = some w_technical →
          weight_lookup default_engine.weights "regime" = some w_regime →
          weight_lookup default_engine.weights "risk" = some w_risk →
          1 / 5 ≤ |w_technical * tech_score_of two_bar_series +
            w_regime * (regime_pair two_bar_series
              (some ⟨some (7 / 10), some HurstRegime.trending⟩)).1 +
            w_risk * (risk_pair two_bar_series (some ⟨some (-(1 / 200))⟩)).1|))
      (default_engine.compute_recommendation two_bar_series none
        (some ⟨some (-(1 / 200))⟩)
        (some ⟨some (7 / 10), some HurstRegime.trending⟩)) :=
  C1_amended default_engine two_bar_series (some ⟨some (-(1 / 200))⟩)
    (some ⟨some (7 / 10), some HurstRegime.trending⟩)

/-- HOLD never receives levels (lines 170-177). -/
theorem levels_of_hold (p : ℚ) (rd : Option ℚ) (regime : Option HurstRegime)
    (f : Option ForecastResult) (closes : List ℚ) :
    levels_of StrategyAction.hold p rd regime f closes = none := by
  cases rd <;> rfl

/-- A missing risk distance suppresses the levels even for BUY/SELL. -/
theorem levels_of_no_rd (a : StrategyAction) (p : ℚ) (regime : Option HurstRegime)
    (f : Option ForecastResult) (closes : List ℚ) :
    levels_of a p none regime f closes = none := by
  cases a <;> rfl

/-- BUY levels, explicitly (lines 181-184). -/
theorem levels_of_buy (p rd : ℚ) (regime : Option HurstRegime)
    (f : Option ForecastResult) (closes : List ℚ) :
    levels_of StrategyAction.buy p (some rd) regime f closes =
      some { entry_lower := roundTo 4 (p * (1 - rd))
             entry_upper := roundTo 4 (p * (1 + 0.25 * rd))
             stop_loss := roundTo 4 (roundTo 4 (p * (1 - rd)) * (1 - rd))
             target_exit := compute_target StrategyAction.buy p rd regime f closes
             rd_pct := roundTo 4 (rd * 100) } := rfl

/-- SELL levels, explicitly (lines 185-188). -/
theorem levels_of_sell (p rd : ℚ) (regime : Option HurstRegime)
    (f : Option ForecastResult) (closes : List ℚ) :
    levels_of StrategyAction.sell p (some rd) regime f closes =
      some { entry_lower := roundTo 4 (p * (1 - 0.25 * rd))
             entry_upper := roundTo 4 (p * (1 + rd))
             stop_loss := roundTo 4 (roundTo 4 (p * (1 + rd)) * (1 + rd))
             target_exit := compute_target StrategyAction.sell p rd regime f closes
             rd_pct := roundTo 4 (rd * 100) } := rfl

/-- C2, counterexample.  The claim says BUY/SELL always carries non-null
stop-loss/entry-zone/risk-distance.  On the two-bar rising series with a
strong forecast (predicted close 200 vs price 110) and *no* risk input (the
one-element return series is far below the 60-observation VaR floor), the
engine returns BUY with all four level fields null. -/
theorem C2_counterexample :
    (default_engine.compute_recommendation two_bar_series (some ⟨200⟩) none
        (some ⟨some (1 / 2), some HurstRegime.random_like⟩)).map
      (fun r => (r.action, r.entry_zone_lower, r.entry_zone_upper, r.stop_loss,
        r.risk_distance_pct)) =
      some (StrategyAction.buy, none, none, none, none) := by
  rw [compute_recommendation_default two_bar_series _ _ rfl]
  have hrg : regime_pair two_bar_series
      (some ⟨some (1 / 2), some HurstRegime.random_like⟩) =
      (0, some HurstRegime.random_like) := by
    norm_num [regime_pair, regime_signal]
  have hrk : risk_pair two_bar_series none = (0, none) := by
    rw [risk_pair, two_bar_returns]
    norm_num [risk_signal, resolve_var_95, calculate_var, compute_var,
      Config.MIN_OBSERVATIONS_RISK]
  have hml : ml_score_of two_bar_series (some ⟨200⟩) = 1 := by
    rw [ml_score_of, two_bar_latest_close]
    norm_num [ml_signal_score, np_clip]
  have hb : blended_of 0.35 0.30 0.20 0.15 two_bar_series (some ⟨200⟩) none
      (some ⟨some (1 / 2), some HurstRegime.random_like⟩) = 3825689 / 6589440 := by
    rw [blended_of, hml, two_bar_tech, hrg, hrk]
    norm_num
  have halign : alignment_of
      (scores_of two_bar_series (some ⟨200⟩) none
        (some ⟨some (1 / 2), some HurstRegime.random_like⟩)) (3825689 / 6589440) = 1 := by
    rw [scores_of, hml, two_bar_tech, hrg, hrk]
    norm_num [alignment_of, List.countP_cons, List.countP_nil]
  have hconv : conviction_of (3825689 / 6589440) 1 = 58 := by
    rw [conviction_of]
    have h1 : (100 : ℚ) * min 1 |3825689 / 6589440| * 1 = 382568900 / 6589440 := by
      rw [abs_of_nonneg (by norm_num), min_eq_right (by norm_num)]
      ring
    rw [h1, roundHalfEven_eq_low 58 _ (by norm_num) (by norm_num)]
    norm_num
  have hact : action_full 0.35 0.30 0.20 0.15 two_bar_series (some ⟨200⟩) none
      (some ⟨some (1 / 2), some HurstRegime.random_like⟩) = StrategyAction.buy := by
    rw [action_full, conviction_full, hb, halign, hconv, action_of]
    rw [if_pos ⟨by norm_num, by norm_num⟩]
  have hlv : levels_full 0.35 0.30 0.20 0.15 two_bar_series (some ⟨200⟩) none
      (some ⟨some (1 / 2), some HurstRegime.random_like⟩) = none := by
    rw [levels_full, hact, hrk]
    exact levels_of_no_rd _ _ _ _ _
  simp only [Option.map_some']
  have e1 : (recommendation_core 0.35 0.30 0.20 0.15 two_bar_series (some ⟨200⟩) none
      (some ⟨some (1 / 2), some HurstRegime.random_like⟩)).action =
      action_full 0.35 0.30 0.20 0.15 two_bar_series (some ⟨200⟩) none
        (some ⟨some (1 / 2), some HurstRegime.random_like⟩) := rfl
  have e2 : (recommendation_core 0.35 0.30 0.20 0.15 two_bar_series (some ⟨200⟩) none
      (some ⟨some (1 / 2), some HurstRegime.random_like⟩)).entry_zone_lower =
      (levels_full 0.35 0.30 0.20 0.15 two_bar_series (some ⟨200⟩) none
        (some ⟨some (1 / 2), some HurstRegime.random_like⟩)).map (·.entry_lower) := rfl
  have e3 : (recommendation_core 0.35 0.30 0.20 0.15 two_bar_series (some ⟨200⟩) none
      (some ⟨some (1 / 2), some HurstRegime.random_like⟩)).entry_zone_upper =
      (levels_full 0.35 0.30 0.20 0.15 two_bar_series (some ⟨200⟩) none
        (some ⟨some (1 / 2), some HurstRegime.random_like⟩)).map (·.entry_upper) := rfl
  have e4 : (recommendation_core 0.35 0.30 0.20 0.15 two_bar_series (some ⟨200⟩) none
      (some ⟨some (1 / 2), some HurstRegime.random_like⟩)).stop_loss =
      (levels_full 0.35 0.30 0.20 0.15 two_bar_series (some ⟨200⟩) none
        (some ⟨some (1 / 2), some HurstRegime.random_like⟩)).map (·.stop_loss) := rfl
  have e5 : (recommendation_core 0.35 0.30 0.20 0.15 two_bar_series (some ⟨200⟩) none
      (some ⟨some (1 / 2), some HurstRegime.random_like⟩)).risk_distance_pct =
      (levels_full 0.35 0.30 0.20 0.15 two_bar_series (some ⟨200⟩) none
        (some ⟨some (1 / 2), some HurstRegime.random_like⟩)).map (·.rd_pct) := rfl
  rw [e1, e2, e3, e4, e5, hact, hlv]
  rfl

/-- C2, amended.  HOLD still nulls all four level fields; BUY/SELL carries
all four non-null *exactly when the 95% VaR risk distance was available*,
and otherwise (VaR unavailable: no snapshot value and fewer than 60 return
observations) all four are null despite the non-HOLD action. -/
theorem C2_amended (e : StrategyEngine) (s : PriceSeries)
    (f : Option ForecastResult) (rs : Option RiskMetricsSnapshot)
    (vr : Option StatisticalValidationResult) :
    recProp (fun rec =>
      (rec.action = StrategyAction.hold →
        rec.entry_zone_lower = none ∧ rec.entry_zone_upper = none ∧
        rec.stop_loss = none ∧ rec.risk_distance_pct = none) ∧
      (rec.action ≠ StrategyAction.hold →
        if (risk_pair s rs).2.isSome then
          rec.entry_zone_lower.isSome ∧ rec.entry_zone_upper.isSome ∧
          rec.stop_loss.isSome ∧ rec.risk_distance_pct.isSome
        else
          rec.entry_zone_lower = none ∧ rec.entry_zone_upper = none ∧
          rec.stop_loss = none ∧ rec.risk_distance_pct = none))
      (e.compute_recommendation s f rs vr) := by
  apply recProp_compute
  intro w_ml w_technical w_regime w_risk _ _ _ _
  have ha : (recommendation_core w_ml w_technical w_regime w_risk s f rs vr).action =
      action_full w_ml w_technical w_regime w_risk s f rs vr := rfl
  have e2 : (recommendation_core w_ml w_technical w_regime w_risk s f rs vr).entry_zone_lower =
      (levels_full w_ml w_technical w_regime w_risk s f rs vr).map (·.entry_lower) := rfl
  have e3 : (recommendation_core w_ml w_technical w_regime w_risk s f rs vr).entry_zone_upper =
      (levels_full w_ml w_technical w_regime w_risk s f rs vr).map (·.entry_upper) := rfl
  have e4 : (recommendation_core w_ml w_technical w_regime w_risk s f rs vr).stop_loss =
      (levels_full w_ml w_technical w_regime w_risk s f rs vr).map (·.stop_loss) := rfl
  have e5 : (recommendation_core w_ml w_technical w_regime w_risk s f rs vr).risk_distance_pct =
      (levels_full w_ml w_technical w_regime w_risk s f rs vr).map (·.rd_pct) := rfl
  constructor
  · intro hh
    rw [ha] at hh
    have hlf : levels_full w_ml w_technical w_regime w_risk s f rs vr = none := by
      rw [levels_full, hh, levels_of_hold]
    rw [e2, e3, e4, e5, hlf]
    exact ⟨rfl, rfl, rfl, rfl⟩
  · intro hna
    rw [ha] at hna
    rcases hrk : (risk_pair s rs).2 with _ | rd
    · rw [if_neg (by simp)]
      have hlf : levels_full w_ml w_technical w_regime w_risk s f rs vr = none := by
        rw [levels_full, hrk]
        exact levels_of_no_rd _ _ _ _ _
      rw [e2, e3, e4, e5, hlf]
      exact ⟨rfl, rfl, rfl, rfl⟩
    · rw [if_pos (by simp)]
      rcases haf : action_full w_ml w_technical w_regime w_risk s f rs vr with _ | _ | _
      · have hlf : levels_full w_ml w_technical w_regime w_risk s f rs vr =
            some { entry_lower := roundTo 4 (latest_close s * (1 - rd))
                   entry_upper := roundTo 4 (latest_close s * (1 + 0.25 * rd))
                   stop_loss := roundTo 4 (roundTo 4 (latest_close s * (1 - rd)) * (1 - rd))
                   target_exit := compute_target StrategyAction.buy (latest_close s) rd
                     (regime_pair s vr).2 f (sorted_closes s)
                   rd_pct := roundTo 4 (rd * 100) } := by
          rw [levels_full, hrk, haf, levels_of_buy]
        rw [e2, e3, e4, e5, hlf]
        exact ⟨rfl, rfl, rfl, rfl⟩
      · have hlf : levels_full w_ml w_technical w_regime w_risk s f rs vr =
            some { entry_lower := roundTo 4 (latest_close s * (1 - 0.25 * rd))
                   entry_upper := roundTo 4 (latest_close s * (1 + rd))
                   stop_loss := roundTo 4 (roundTo 4 (latest_close s * (1 + rd)) * (1 + rd))
                   target_exit := compute_target StrategyAction.sell (latest_close s) rd
                     (regime_pair s vr).2 f (sorted_closes s)
                   rd_pct := roundTo 4 (rd * 100) } := by
          rw [levels_full, hrk, haf, levels_of_sell]
        rw [e2, e3, e4, e5, hlf]
        exact ⟨rfl, rfl, rfl, rfl⟩
      · exact absurd haf hna

/-- C2, amended, witness: instantiated at the inputs of the C2
counterexample run. -/
theorem C2_amended_witness :
    recProp (fun rec =>
      (rec.action = StrategyAction.hold →
        rec.entry_zone_lower = none ∧ rec.entry_zone_upper = none ∧
        rec.stop_loss = none ∧ rec.risk_distance_pct = none) ∧
      (rec.action ≠ StrategyAction.hold →
        if (risk_pair two_bar_series none).2.isSome then
          rec.entry_zone_lower.isSome ∧ rec.entry_zone_upper.isSome ∧
          rec.stop_loss.isSome ∧ rec.risk_distance_pct.isSome
        else
          rec.entry_zone_lower = none ∧ rec.entry_zone_upper = none ∧
          rec.stop_loss = none ∧ rec.risk_distance_pct = none))
      (default_engine.compute_recommendation two_bar_series (some ⟨200⟩) none
        (some ⟨some (1 / 2), some HurstRegime.random_like⟩)) :=
  C2_amended default_engine two_bar_series (some ⟨200⟩) none
    (some ⟨some (1 / 2), some HurstRegime.random_like⟩)

/-- If the weight total misses 1.0 by more than the absolute tolerance
1e-6, `math.isclose` is false: its additional relative tolerance 1e-9 never
rescues a total that far away (a total within relative reach of 1 is within
2e-9 of it). -/
theorem math_isclose_one_false {t : ℚ} (h : ¬|t - 1| ≤ 1 / 1000000) :
    math_isclose t 1 = false := by
  unfold math_isclose
  apply decide_eq_false
  intro hc
  apply h
  have h1 : |t| - 1 ≤ |t - 1| := by
    have := abs_sub_abs_le_abs_sub t 1
    simpa using this
  rcases le_total |t| 1 with hb | hb
  · have hm : max |t| |(1 : ℚ)| = 1 := by
      rw [abs_one]; exact max_eq_right hb
    rw [hm] at hc
    calc |t - 1| ≤ max (1 / 1000000000 * 1) (1 / 1000000) := hc
    _ = 1 / 1000000 := by norm_num
  · have hm : max |t| |(1 : ℚ)| = |t| := by
      rw [abs_one]; exact max_eq_left hb
    rw [hm] at hc
    rcases le_or_lt (1 / 1000000000 * |t|) (1 / 1000000) with hmm | hmm
    · calc |t - 1| ≤ max (1 / 1000000000 * |t|) (1 / 1000000) := hc
      _ = 1 / 1000000 := max_eq_right hmm
    · have hmax : max (1 / 1000000000 * |t|) (1 / 1000000) = 1 / 1000000000 * |t| :=
        max_eq_left hmm.le
      rw [hmax] at hc
      linarith [abs_nonneg (t - 1)]

/-- C3, counterexample.  The claim says *every* weights mapping whose values
do not sum to 1.0 (tolerance 1e-6) makes construction fail.  The empty
mapping sums to 0, yet `weights or dict(DEFAULT_WEIGHTS)` treats the falsy
empty dict exactly like `None`: construction silently succeeds with the
default weights instead of raising. -/
theorem C3_counterexample :
    ¬|((([] : List (String × ℚ)).map Prod.snd).sum) - 1| ≤ 1 / 1000000 ∧
      StrategyEngine.make (some []) = Except.ok default_engine := by
  constructor
  · norm_num [abs_le]
  · have hc : math_isclose ((DEFAULT_WEIGHTS.map Prod.snd).sum) 1 = true := by
      simp [math_isclose, DEFAULT_WEIGHTS]
      norm_num
    unfold StrategyEngine.make
    simp [hc, default_engine]

/-- C3, amended.  For every *non-empty* weights mapping whose values sum to
anything farther than 1e-6 from 1.0, construction raises (`ValueError`,
modelled as `Except.error`), so no recommendation can come from it; the
empty mapping is silently replaced by the defaults instead. -/
theorem C3_amended (w : List (String × ℚ)) (hne : w ≠ [])
    (hs : ¬|((w.map Prod.snd).sum) - 1| ≤ 1 / 1000000) :
    StrategyEngine.make (some w) = Except.error "Weights must sum to 1.0" := by
  have hie : w.isEmpty = false := by
    cases w
    · exact absurd rfl hne
    · rfl
  unfold StrategyEngine.make
  simp [hie, math_isclose_one_false hs]

/-- C3, amended, witness: the one-entry mapping `{"ml": 0.5}` is rejected. -/
theorem C3_amended_witness :
    ([("ml", (1 : ℚ) / 2)] ≠ ([] : List (String × ℚ))) ∧
      ¬|((([("ml", (1 : ℚ) / 2)] : List (String × ℚ)).map Prod.snd).sum) - 1| ≤ 1 / 1000000 ∧
      StrategyEngine.make (some [("ml", (1 : ℚ) / 2)]) =
        Except.error "Weights must sum to 1.0" :=
  ⟨by simp, by norm_num [abs_le], C3_amended _ (by simp) (by norm_num [abs_le])⟩

/-- C4.  `compute_var` returns `None` below 60 observations, and on any
sample of at least 60 observations the 99% VaR is at most the 95% VaR
(the empirical linear-interpolation quantile is monotone in its position,
and position `0.01·(n-1)` precedes position `0.05·(n-1)` in the sorted
sample). -/
theorem C4_theorem (returns : List ℚ) :
    (returns.length < 60 →
      compute_var returns 0.99 = none ∧ compute_var returns 0.95 = none) ∧
    (60 ≤ returns.length →
      ∃ v99 v95, compute_var returns 0.99 = some v99 ∧
        compute_var returns 0.95 = some v95 ∧ v99 ≤ v95) := by
  constructor
  · intro h
    have hl : returns.length < Config.MIN_OBSERVATIONS_RISK := h
    unfold compute_var
    rw [if_pos hl, if_pos hl]
    exact ⟨rfl, rfl⟩
  · intro h
    have hnl : ¬returns.length < Config.MIN_OBSERVATIONS_RISK := by
      unfold Config.MIN_OBSERVATIONS_RISK
      omega
    have hcast : (60 : ℚ) ≤ (returns.length : ℚ) := by exact_mod_cast h
    refine ⟨quantile_linear returns (1 - 0.99), quantile_linear returns (1 - 0.95),
      ?_, ?_, ?_⟩
    · unfold compute_var
      rw [if_neg hnl]
    · unfold compute_var
      rw [if_neg hnl]
    · unfold quantile_linear
      apply interp_at_mono
      · exact List.sorted_insertionSort _ _
      · apply mul_nonneg (by norm_num)
        linarith
      · apply mul_le_mul_of_nonneg_right (by norm_num)
        linarith
      · rw [List.length_insertionSort]
        nlinarith

/-- C4, witness: both branches exercised — a 3-observation sample has no
VaR, and a 60-observation sample satisfies the ordering. -/
theorem C4_witness :
    (List.replicate 3 (0 : ℚ)).length < 60 ∧
      (compute_var (List.replicate 3 (0 : ℚ)) 0.99 = none ∧
        compute_var (List.replicate 3 (0 : ℚ)) 0.95 = none) ∧
      ∃ v99 v95, compute_var (List.replicate 60 (0 : ℚ)) 0.99 = some v99 ∧
        compute_var (List.replicate 60 (0 : ℚ)) 0.95 = some v95 ∧ v99 ≤ v95 :=
  ⟨by norm_num, (C4_theorem _).1 (by norm_num), (C4_theorem _).2 (by norm_num)⟩

/-- Sign of a rational, in the literal sense of the spec sentence for C5. -/
def signQ (x : ℚ) : ℤ :=
  if x < 0 then -1 else if 0 < x then 1 else 0

/-- Modelled from the spec's words (C5): "alignment = (count of scores whose
sign matches sign(blended)) / 4".  To be compared against the code's
`alignment_of`. -/
def spec_sign_alignment (scores : List ℚ) (blended : ℚ) : ℚ :=
  ((scores.countP fun s => decide (signQ s = signQ blended)) : ℚ) / 4

/-- Modelled from the spec's words (C5):
"conviction = round(100 * min(1, |blended|) * alignment)". -/
def spec_conviction (scores : List ℚ) (blended : ℚ) : ℤ :=
  roundHalfEven (100 * min 1 |blended| * spec_sign_alignment scores blended)

/-- C5, counterexample.  With no forecast (ML score exactly 0), a trending
validation and VaR95 = -1%, the code counts the zero ML score as aligned
with the positive blend (alignment 4/4, conviction 39), while the claimed
formula — sign(0) = 0 does not match sign(blended) = +1 — gives alignment
3/4 and conviction 29.  The recommendation's conviction is 39, not 29. -/
theorem C5_counterexample :
    (default_engine.compute_recommendation two_bar_series none
        (some ⟨some (-(1 / 100))⟩)
        (some ⟨some (7 / 10), some HurstRegime.trending⟩)).map
      StrategyRecommendation.conviction = some 39 ∧
    spec_conviction
      (scores_of two_bar_series none (some ⟨some (-(1 / 100))⟩)
        (some ⟨some (7 / 10), some HurstRegime.trending⟩))
      (blended_of 0.35 0.30 0.20 0.15 two_bar_series none (some ⟨some (-(1 / 100))⟩)
        (some ⟨some (7 / 10), some HurstRegime.trending⟩)) = 29 := by
  have hrg : regime_pair two_bar_series
      (some ⟨some (7 / 10), some HurstRegime.trending⟩) =
      (1 / 2, some HurstRegime.trending) := by
    norm_num [regime_pair, regime_signal]
  have habs : |(-(1 / 100) : ℚ)| = 1 / 100 := by
    rw [abs_of_neg (by norm_num)]
    norm_num
  have hrk : risk_pair two_bar_series (some ⟨some (-(1 / 100))⟩) =
      (2 / 5, some (1 / 100)) := by
    rw [risk_pair, risk_signal]
    norm_num [resolve_var_95, np_interp_risk, np_clip, habs]
  have hml : ml_score_of two_bar_series none = 0 := rfl
  have hb : blended_of 0.35 0.30 0.20 0.15 two_bar_series none
      (some ⟨some (-(1 / 100))⟩) (some ⟨some (7 / 10), some HurstRegime.trending⟩) =
      12868477 / 32947200 := by
    rw [blended_of, hml, two_bar_tech, hrg, hrk]
    norm_num
  have hsc : scores_of two_bar_series none (some ⟨some (-(1 / 100))⟩)
      (some ⟨some (7 / 10), some HurstRegime.trending⟩) =
      [0, 1519385 / 1976832, 1 / 2, 2 / 5] := by
    rw [scores_of, hml, two_bar_tech, hrg, hrk]
  constructor
  · have halign : alignment_of [0, 1519385 / 1976832, 1 / 2, 2 / 5]
        (12868477 / 32947200) = 1 := by
      norm_num [alignment_of, List.countP_cons, List.countP_nil]
    have hconv : conviction_of (12868477 / 32947200) 1 = 39 := by
      rw [conviction_of]
      have h1 : (100 : ℚ) * min 1 |12868477 / 32947200| * 1 = 1286847700 / 32947200 := by
        rw [abs_of_nonneg (by norm_num), min_eq_right (by norm_num)]
        ring
      rw [h1, roundHalfEven_eq_low 39 _ (by norm_num) (by norm_num)]
      norm_num
    rw [compute_recommendation_default two_bar_series _ _ rfl]
    simp only [Option.map_some']
    have hproj : (recommendation_core 0.35 0.30 0.20 0.15 two_bar_series none
        (some ⟨some (-(1 / 100))⟩)
        (some ⟨some (7 / 10), some HurstRegime.trending⟩)).conviction =
        conviction_of
          (blended_of 0.35 0.30 0.20 0.15 two_bar_series none
            (some ⟨some (-(1 / 100))⟩)
            (some ⟨some (7 / 10), some HurstRegime.trending⟩))
          (alignment_of
            (scores_of two_bar_series none (some ⟨some (-(1 / 100))⟩)
              (some ⟨some (7 / 10), some HurstRegime.trending⟩))
            (blended_of 0.35 0.30 0.20 0.15 two_bar_series none
              (some ⟨some (-(1 / 100))⟩)
              (some ⟨some (7 / 10), some HurstRegime.trending⟩))) := rfl
    rw [hproj, hb, hsc, halign, hconv]
  · rw [hsc, hb]
    have hsa : spec_sign_alignment [0, 1519385 / 1976832, 1 / 2, 2 / 5]
        (12868477 / 32947200) = 3 / 4 := by
      norm_num [spec_sign_alignment, signQ, List.countP_cons, List.countP_nil]
    rw [spec_conviction, hsa]
    have h1 : (100 : ℚ) * min 1 |12868477 / 32947200| * (3 / 4) =
        965135775 / 32947200 := by
      rw [abs_of_nonneg (by norm_num), min_eq_right (by norm_num)]
      ring
    rw [h1, roundHalfEven_eq_low 29 _ (by norm_num) (by norm_num)]

/-- C5, amended.  The conviction is
`clamp(round(100 * min(1, |blended|) * alignment), 0, 100)` — always within
`[0, 100]` — where the alignment counts the sub-scores `s` with `s ≥ 0`
when `blended ≥ 0` and those with `s < 0` otherwise (a zero sub-score
counts as agreeing with a non-negative blend). -/
theorem C5_amended (e : StrategyEngine) (s : PriceSeries)
    (f : Option ForecastResult) (rs : Option RiskMetricsSnapshot)
    (vr : Option StatisticalValidationResult) :
    recProp (fun rec =>
      0 ≤ rec.conviction ∧ rec.conviction ≤ 100 ∧
      ∀ w_ml w_technical w_regime w_risk,
        weight_lookup e.weights "ml" = some w_ml →
        weight_lookup e.weights "technical" = some w_technical →
        weight_lookup e.weights "regime" = some w_regime →
        weight_lookup e.weights "risk" = some w_risk →
        rec.conviction =
          max 0 (min 100 (roundHalfEven (100 *
            min 1 |blended_of w_ml w_technical w_regime w_risk s f rs vr| *
            alignment_of (scores_of s f rs vr)
              (blended_of w_ml w_technical w_regime w_risk s f rs vr)))))
      (e.compute_recommendation s f rs vr) := by
  apply recProp_compute
  intro w_ml w_technical w_regime w_risk hml hmt hmg hmr
  have hc : (recommendation_core w_ml w_technical w_regime w_risk s f rs vr).conviction =
      conviction_of (blended_of w_ml w_technical w_regime w_risk s f rs vr)
        (alignment_of (scores_of s f rs vr)
          (blended_of w_ml w_technical w_regime w_risk s f rs vr)) := rfl
  refine ⟨?_, ?_, ?_⟩
  · rw [hc]
    exact le_max_left 0 _
  · rw [hc]
    exact max_le (by norm_num) (min_le_left _ _)
  · intro w1 w2 w3 w4 e1 e2 e3 e4
    have q1 : w1 = w_ml := by rw [hml] at e1; exact (Option.some_inj.mp e1).symm
    have q2 : w2 = w_technical := by rw [hmt] at e2; exact (Option.some_inj.mp e2).symm
    have q3 : w3 = w_regime := by rw [hmg] at e3; exact (Option.some_inj.mp e3).symm
    have q4 : w4 = w_risk := by rw [hmr] at e4; exact (Option.some_inj.mp e4).symm
    rw [q1, q2, q3, q4, hc]
    rfl

/-- C5, amended, witness: instantiated at the inputs of the C5
counterexample run. -/
theorem C5_amended_witness :
    recProp (fun rec =>
      0 ≤ rec.conviction ∧ rec.conviction ≤ 100 ∧
      ∀ w_ml w_technical w_regime w_risk,
        weight_lookup default_engine.weights "ml" = some w_ml →
        weight_lookup default_engine.weights "technical" = some w_technical →
        weight_lookup default_engine.weights "regime" = some w_regime →
        weight_lookup default_engine.weights "risk" = some w_risk →
        rec.conviction =
          max 0 (min 100 (roundHalfEven (100 *
            min 1 |blended_of w_ml w_technical w_regime w_risk two_bar_series none
              (some ⟨some (-(1 / 100))⟩)
              (some ⟨some (7 / 10), some HurstRegime.trending⟩)| *
            alignment_of
              (scores_of two_bar_series none (some ⟨some (-(1 / 100))⟩)
                (some ⟨some (7 / 10), some HurstRegime.trending⟩))
              (blended_of w_ml w_technical w_regime w_risk two_bar_series none
                (some ⟨some (-(1 / 100))⟩)
                (some ⟨some (7 / 10), some HurstRegime.trending⟩))))))
      (default_engine.compute_recommendation two_bar_series none
        (some ⟨some (-(1 / 100))⟩)
        (some ⟨some (7 / 10), some HurstRegime.trending⟩)) :=
  C5_amended default_engine two_bar_series none (some ⟨some (-(1 / 100))⟩)
    (some ⟨some (7 / 10), some HurstRegime.trending⟩)

/-- C6.  `compute_hurst` either returns null hurst/regime fields — exactly
under the insufficiency guards (fewer than `MIN_OBSERVATIONS_VALIDATION`
observations, fewer than 3 block sizes, or fewer than 3 valid block-size
points) — or returns `H = 1 + slope/2` clamped to `[0, 1]` with regime
`mean_reverting` exactly when `H < 0.4`, `trending` exactly when `H > 0.6`,
and `random_like` otherwise. -/
theorem C6_theorem (returns : List ℚ) :
    ((returns.length < Config.MIN_OBSERVATIONS_VALIDATION ∨
        (hurst_ks returns.length).length < 3 ∨
        (hurst_valid_pairs returns).length < 3) ∧
      (compute_hurst returns).hurst = none ∧
      (compute_hurst returns).hurst_regime = none) ∨
    (∃ H : ℝ, (compute_hurst returns).hurst = some H ∧
      H = min 1 (max 0 (1 + hurst_slope (hurst_valid_pairs returns) / 2)) ∧
      0 ≤ H ∧ H ≤ 1 ∧
      ((compute_hurst returns).hurst_regime = some HurstRegime.mean_reverting ↔
        H < 0.4) ∧
      ((compute_hurst returns).hurst_regime = some HurstRegime.trending ↔
        H > 0.6) ∧
      ((compute_hurst returns).hurst_regime = some HurstRegime.random_like ↔
        0.4 ≤ H ∧ H ≤ 0.6)) := by
  unfold compute_hurst
  split_ifs with h1 h2 h3 hlt hgt
  · exact Or.inl ⟨Or.inl h1, rfl, rfl⟩
  · exact Or.inl ⟨Or.inr (Or.inl h2), rfl, rfl⟩
  · exact Or.inl ⟨Or.inr (Or.inr h3), rfl, rfl⟩
  · right
    refine ⟨hurst_h returns, rfl, rfl,
      le_min (by norm_num) (le_max_left 0 _), min_le_left _ _,
      iff_of_true rfl hlt, iff_of_false (by simp) ?_, iff_of_false (by simp) ?_⟩
    · intro hc
      linarith
    · intro hc
      exact absurd hlt (not_lt.mpr hc.1)
  · right
    refine ⟨hurst_h returns, rfl, rfl,
      le_min (by norm_num) (le_max_left 0 _), min_le_left _ _,
      iff_of_false (by simp) hlt, iff_of_true rfl hgt, iff_of_false (by simp) ?_⟩
    intro hc
    exact absurd hgt (not_lt.mpr hc.2)
  · right
    exact ⟨hurst_h returns, rfl, rfl,
      le_min (by norm_num) (le_max_left 0 _), min_le_left _ _,
      iff_of_false (by simp) hlt, iff_of_false (by simp) hgt,
      iff_of_true rfl ⟨not_lt.mp hlt, not_lt.mp hgt⟩⟩

/-- C7.  `compute_recommendation` is a pure function of its four inputs —
two calls on equal inputs return equal recommendations (the embedding
consults no clock, randomness, or hidden state) — and the `as_of_date` of
any produced recommendation is the date of the latest bar of the supplied
series (`series.get_latest_bar().date`), never a wall-clock date. -/
theorem C7_theorem (e : StrategyEngine) (s s' : PriceSeries)
    (f f' : Option ForecastResult) (rs rs' : Option RiskMetricsSnapshot)
    (vr vr' : Option StatisticalValidationResult)
    (hs : s = s') (hf : f = f') (hrs : rs = rs') (hvr : vr = vr') :
    e.compute_recommendation s f rs vr = e.compute_recommendation s' f' rs' vr' ∧
    recProp (fun rec => ∀ b, get_latest_bar s = some b → rec.as_of_date = b.date)
      (e.compute_recommendation s f rs vr) := by
  subst hs hf hrs hvr
  refine ⟨rfl, ?_⟩
  apply recProp_compute
  intro w_ml w_technical w_regime w_risk _ _ _ _
  intro b hb
  have h1 : (recommendation_core w_ml w_technical w_regime w_risk s f rs vr).as_of_date =
      latest_date s := rfl
  have h2 : latest_date s = b.date := by
    unfold latest_date
    rw [hb]
  rw [h1, h2]

/-- C7, witness: the determinism-and-as-of statement instantiated on the
two-bar series with all optional inputs absent. -/
theorem C7_witness :
    default_engine.compute_recommendation two_bar_series none none none =
      default_engine.compute_recommendation two_bar_series none none none ∧
    recProp (fun rec => ∀ b, get_latest_bar two_bar_series = some b →
        rec.as_of_date = b.date)
      (default_engine.compute_recommendation two_bar_series none none none) :=
  C7_theorem default_engine two_bar_series two_bar_series none none none none
    none none rfl rfl rfl rfl

/-- Any risk distance the risk signal produces is a clamped |VaR|. -/
theorem risk_signal_snd_eq (ret : List ℚ) (snap : Option RiskMetricsSnapshot)
    {rd : ℚ} (h : (risk_signal ret snap).2 = some rd) :
    ∃ v : ℚ, rd = np_clip |v| 0.005 0.10 := by
  unfold risk_signal at h
  rcases hv : resolve_var_95 ret snap with _ | v
  · rw [hv] at h
    simp at h
  · rw [hv] at h
    simp only [Option.some_inj] at h
    exact ⟨v, h.symm⟩

/-- The clamp really lands in `[0.005, 0.10]`. -/
theorem np_clip_mem (x lo hi : ℚ) (h : lo ≤ hi) :
    lo ≤ np_clip x lo hi ∧ np_clip x lo hi ≤ hi :=
  ⟨le_min h (le_max_left lo x), min_le_left hi _⟩

/-- C8, counterexample.  The claim asserts `stopLoss < entryLower <
entryUpper` for every BUY with non-null levels.  On a valid series trading
at 0.01 with `rd = 0.005` (the lower clamp), the three levels all round to
the same 4-decimal price 0.01: strict ordering fails. -/
theorem C8_counterexample :
    (default_engine.compute_recommendation penny_series (some ⟨1 / 50⟩)
        (some ⟨some (-(1 / 1000))⟩)
        (some ⟨some (7 / 10), some HurstRegime.trending⟩)).map
      (fun r => (r.action, r.entry_zone_lower, r.entry_zone_upper, r.stop_loss)) =
      some (StrategyAction.buy, some (1 / 100), some (1 / 100), some (1 / 100)) := by
  rw [compute_recommendation_default penny_series _ _ rfl]
  have hrg : regime_pair penny_series
      (some ⟨some (7 / 10), some HurstRegime.trending⟩) =
      (1 / 2, some HurstRegime.trending) := by
    norm_num [regime_pair, regime_signal]
  have habs : |(-(1 / 1000) : ℚ)| = 1 / 1000 := by
    rw [abs_of_neg (by norm_num)]
    norm_num
  have hrk : risk_pair penny_series (some ⟨some (-(1 / 1000))⟩) =
      (49 / 100, some (1 / 200)) := by
    rw [risk_pair, risk_signal]
    norm_num [resolve_var_95, np_interp_risk, np_clip, habs]
  have hml : ml_score_of penny_series (some ⟨1 / 50⟩) = 1 := by
    rw [ml_score_of, penny_latest_close]
    norm_num [ml_signal_score, np_clip]
  have hb : blended_of 0.35 0.30 0.20 0.15 penny_series (some ⟨1 / 50⟩)
      (some ⟨some (-(1 / 1000))⟩) (some ⟨some (7 / 10), some HurstRegime.trending⟩) =
      1047 / 2000 := by
    rw [blended_of, hml, penny_tech, hrg, hrk]
    norm_num
  have halign : alignment_of
      (scores_of penny_series (some ⟨1 / 50⟩) (some ⟨some (-(1 / 1000))⟩)
        (some ⟨some (7 / 10), some HurstRegime.trending⟩)) (1047 / 2000) = 1 := by
    rw [scores_of, hml, penny_tech, hrg, hrk]
    norm_num [alignment_of, List.countP_cons, List.countP_nil]
  have hconv : conviction_of (1047 / 2000) 1 = 52 := by
    rw [conviction_of]
    have h1 : (100 : ℚ) * min 1 |1047 / 2000| * 1 = 104700 / 2000 := by
      rw [abs_of_nonneg (by norm_num), min_eq_right (by norm_num)]
      ring
    rw [h1, roundHalfEven_eq_low 52 _ (by norm_num) (by norm_num)]
    norm_num
  have hact : action_full 0.35 0.30 0.20 0.15 penny_series (some ⟨1 / 50⟩)
      (some ⟨some (-(1 / 1000))⟩) (some ⟨some (7 / 10), some HurstRegime.trending⟩) =
      StrategyAction.buy := by
    rw [action_full, conviction_full, hb, halign, hconv, action_of]
    rw [if_pos ⟨by norm_num, by norm_num⟩]
  have hlow : roundTo 4 ((1 / 100 : ℚ) * (1 - 1 / 200)) = 1 / 100 := by
    rw [roundTo, show ((1 / 100 : ℚ) * (1 - 1 / 200)) * 10 ^ 4 = (99 : ℚ) + 1 / 2 by norm_num,
      roundHalfEven_tie 99 _ (by norm_num)]
    norm_num
  have hup : roundTo 4 ((1 / 100 : ℚ) * (1 + 0.25 * (1 / 200))) = 1 / 100 := by
    rw [roundTo, show ((1 / 100 : ℚ) * (1 + 0.25 * (1 / 200))) * 10 ^ 4 = 801 / 8 by norm_num,
      roundHalfEven_eq_low 100 _ (by norm_num) (by norm_num)]
    norm_num
  have hlv : levels_full 0.35 0.30 0.20 0.15 penny_series (some ⟨1 / 50⟩)
      (some ⟨some (-(1 / 1000))⟩) (some ⟨some (7 / 10), some HurstRegime.trending⟩) =
      some { entry_lower := roundTo 4 ((1 / 100 : ℚ) * (1 - 1 / 200))
             entry_upper := roundTo 4 ((1 / 100 : ℚ) * (1 + 0.25 * (1 / 200)))
             stop_loss := roundTo 4 (roundTo 4 ((1 / 100 : ℚ) * (1 - 1 / 200)) * (1 - 1 / 200))
             target_exit := compute_target StrategyAction.buy (1 / 100) (1 / 200)
               (some HurstRegime.trending) (some ⟨1 / 50⟩) [1 / 100, 1 / 100]
             rd_pct := roundTo 4 ((1 / 200 : ℚ) * 100) } := by
    rw [levels_full, hact, hrk, hrg, penny_latest_close, penny_sorted_closes,
      levels_of_buy]
  simp only [Option.map_some']
  have e1 : (recommendation_core 0.35 0.30 0.20 0.15 penny_series (some ⟨1 / 50⟩)
      (some ⟨some (-(1 / 1000))⟩)
      (some ⟨some (7 / 10), some HurstRegime.trending⟩)).action =
      action_full 0.35 0.30 0.20 0.15 penny_series (some ⟨1 / 50⟩)
        (some ⟨some (-(1 / 1000))⟩)
        (some ⟨some (7 / 10), some HurstRegime.trending⟩) := rfl
  have e2 : (recommendation_core 0.35 0.30 0.20 0.15 penny_series (some ⟨1 / 50⟩)
      (some ⟨some (-(1 / 1000))⟩)
      (some ⟨some (7 / 10), some HurstRegime.trending⟩)).entry_zone_lower =
      (levels_full 0.35 0.30 0.20 0.15 penny_series (some ⟨1 / 50⟩)
        (some ⟨some (-(1 / 1000))⟩)
        (some ⟨some (7 / 10), some HurstRegime.trending⟩)).map (·.entry_lower) := rfl
  have e3 : (recommendation_core 0.35 0.30 0.20 0.15 penny_series (some ⟨1 / 50⟩)
      (some ⟨some (-(1 / 1000))⟩)
      (some ⟨some (7 / 10), some HurstRegime.trending⟩)).entry_zone_upper =
      (levels_full 0.35 0.30 0.20 0.15 penny_series (some ⟨1 / 50⟩)
        (some ⟨some (-(1 / 1000))⟩)
        (some ⟨some (7 / 10), some HurstRegime.trending⟩)).map (·.entry_upper) := rfl
  have e4 : (recommendation_core 0.35 0.30 0.20 0.15 penny_series (some ⟨1 / 50⟩)
      (some ⟨some (-(1 / 1000))⟩)
      (some ⟨some (7 / 10), some HurstRegime.trending⟩)).stop_loss =
      (levels_full 0.35 0.30 0.20 0.15 penny_series (some ⟨1 / 50⟩)
        (some ⟨some (-(1 / 1000))⟩)
        (some ⟨some (7 / 10), some HurstRegime.trending⟩)).map (·.stop_loss) := rfl
  rw [e1, e2, e3, e4, hact, hlv]
  simp only [Option.map_some']
  rw [hlow, hup, hlow]

/-- C8, amended.  For every BUY recommendation on a positively-priced
series whose risk distance `rd` was available: `rd` lies in the clamp range
`[0.005, 0.10]`, the levels equal the claimed formulas
(`entryLower = round4(price·(1-rd))`, `entryUpper = round4(price·(1+0.25·rd))`,
`stopLoss = round4(entryLower·(1-rd))`), and they are ordered
`stopLoss ≤ entryLower ≤ entryUpper` — the strict ordering of the original
claim can collapse to equality through the 4-decimal rounding (see the
counterexample at price 0.01). -/
theorem C8_amended (e : StrategyEngine) (s : PriceSeries)
    (f : Option ForecastResult) (rs : Option RiskMetricsSnapshot)
    (vr : Option StatisticalValidationResult) (hp : 0 < latest_close s) :
    recProp (fun rec => rec.action = StrategyAction.buy →
      ∀ rd, (risk_pair s rs).2 = some rd →
        0.005 ≤ rd ∧ rd ≤ 0.10 ∧
        rec.entry_zone_lower = some (roundTo 4 (latest_close s * (1 - rd))) ∧
        rec.entry_zone_upper = some (roundTo 4 (latest_close s * (1 + 0.25 * rd))) ∧
        rec.stop_loss =
          some (roundTo 4 (roundTo 4 (latest_close s * (1 - rd)) * (1 - rd))) ∧
        roundTo 4 (roundTo 4 (latest_close s * (1 - rd)) * (1 - rd)) ≤
          roundTo 4 (latest_close s * (1 - rd)) ∧
        roundTo 4 (latest_close s * (1 - rd)) ≤
          roundTo 4 (latest_close s * (1 + 0.25 * rd)))
      (e.compute_recommendation s f rs vr) := by
  apply recProp_compute
  intro w_ml w_technical w_regime w_risk _ _ _ _
  intro hbuy rd hrd
  have hrdb : 0.005 ≤ rd ∧ rd ≤ 0.10 := by
    obtain ⟨v, hv⟩ := risk_signal_snd_eq (get_returns s) rs hrd
    rw [hv]
    exact np_clip_mem _ _ _ (by norm_num)
  have ha : (recommendation_core w_ml w_technical w_regime w_risk s f rs vr).action =
      action_full w_ml w_technical w_regime w_risk s f rs vr := rfl
  rw [ha] at hbuy
  have hlv : levels_full w_ml w_technical w_regime w_risk s f rs vr =
      some { entry_lower := roundTo 4 (latest_close s * (1 - rd))
             entry_upper := roundTo 4 (latest_close s * (1 + 0.25 * rd))
             stop_loss := roundTo 4 (roundTo 4 (latest_close s * (1 - rd)) * (1 - rd))
             target_exit := compute_target StrategyAction.buy (latest_close s) rd
               (regime_pair s vr).2 f (sorted_closes s)
             rd_pct := roundTo 4 (rd * 100) } := by
    rw [levels_full, hbuy, hrd, levels_of_buy]
  have e2 : (recommendation_core w_ml w_technical w_regime w_risk s f rs vr).entry_zone_lower =
      (levels_full w_ml w_technical w_regime w_risk s f rs vr).map (·.entry_lower) := rfl
  have e3 : (recommendation_core w_ml w_technical w_regime w_risk s f rs vr).entry_zone_upper =
      (levels_full w_ml w_technical w_regime w_risk s f rs vr).map (·.entry_upper) := rfl
  have e4 : (recommendation_core w_ml w_technical w_regime w_risk s f rs vr).stop_loss =
      (levels_full w_ml w_technical w_regime w_risk s f rs vr).map (·.stop_loss) := rfl
  have hL0 : 0 ≤ roundTo 4 (latest_close s * (1 - rd)) := by
    apply roundTo_nonneg
    have : (0 : ℚ) ≤ 1 - rd := by linarith [hrdb.2]
    positivity
  refine ⟨hrdb.1, hrdb.2, ?_, ?_, ?_, ?_, ?_⟩
  · rw [e2, hlv]
    rfl
  · rw [e3, hlv]
    rfl
  · rw [e4, hlv]
    rfl
  · calc roundTo 4 (roundTo 4 (latest_close s * (1 - rd)) * (1 - rd)) ≤
        roundTo 4 (roundTo 4 (latest_close s * (1 - rd))) := by
          apply roundTo_mono
          nlinarith [hrdb.1, hrdb.2]
    _ = roundTo 4 (latest_close s * (1 - rd)) := roundTo_idem 4 _
  · apply roundTo_mono
    nlinarith [hrdb.1, hrdb.2]

/-- C8, amended, witness: a BUY run on the two-bar series with
VaR95 = -2% (`rd = 0.02`). -/
theorem C8_amended_witness :
    0 < latest_close two_bar_series ∧
    recProp (fun rec => rec.action = StrategyAction.buy →
      ∀ rd, (risk_pair two_bar_series (some ⟨some (-(1 / 50))⟩)).2 = some rd →
        0.005 ≤ rd ∧ rd ≤ 0.10 ∧
        rec.entry_zone_lower =
          some (roundTo 4 (latest_close two_bar_series * (1 - rd))) ∧
        rec.entry_zone_upper =
          some (roundTo 4 (latest_close two_bar_series * (1 + 0.25 * rd))) ∧
        rec.stop_loss = some (roundTo 4
          (roundTo 4 (latest_close two_bar_series * (1 - rd)) * (1 - rd))) ∧
        roundTo 4 (roundTo 4 (latest_close two_bar_series * (1 - rd)) * (1 - rd)) ≤
          roundTo 4 (latest_close two_bar_series * (1 - rd)) ∧
        roundTo 4 (latest_close two_bar_series * (1 - rd)) ≤
          roundTo 4 (latest_close two_bar_series * (1 + 0.25 * rd)))
      (default_engine.compute_recommendation two_bar_series (some ⟨200⟩)
        (some ⟨some (-(1 / 50))⟩)
        (some ⟨some (7 / 10), some HurstRegime.trending⟩)) :=
  ⟨by rw [two_bar_latest_close]; norm_num,
    C8_amended default_engine two_bar_series (some ⟨200⟩) (some ⟨some (-(1 / 50))⟩)
      (some ⟨some (7 / 10), some HurstRegime.trending⟩)
      (by rw [two_bar_latest_close]; norm_num)⟩

/-- C9.  `_raw_inputs_snapshot` hard-codes `dict(DEFAULT_WEIGHTS)` under the
`"weights"` key: every recommendation — from any engine, including one
configured with custom weights — audits the default weight set, and when
the engine's weights differ from the defaults the audit map does not match
the configured weights. -/
theorem C9_theorem (e : StrategyEngine) (s : PriceSeries)
    (f : Option ForecastResult) (rs : Option RiskMetricsSnapshot)
    (vr : Option StatisticalValidationResult) :
    recProp (fun rec =>
      rec.raw_inputs.weights = DEFAULT_WEIGHTS ∧
      (e.weights ≠ DEFAULT_WEIGHTS → rec.raw_inputs.weights ≠ e.weights))
      (e.compute_recommendation s f rs vr) := by
  apply recProp_compute
  intro w_ml w_technical w_regime w_risk _ _ _ _
  have h1 : (recommendation_core w_ml w_technical w_regime w_risk s f rs vr).raw_inputs.weights =
      DEFAULT_WEIGHTS := rfl
  refine ⟨h1, fun hne => ?_⟩
  rw [h1]
  exact fun hc => hne hc.symm

/-- The custom equal-weight configuration used by the C9 witness. -/
def quarter_weights : List (String × ℚ) :=
  [("ml", 0.25), ("technical", 0.25), ("regime", 0.25), ("risk", 0.25)]

/-- C9, witness: an engine built with custom weights `{0.25, 0.25, 0.25,
0.25}` (accepted, since they sum to 1.0) still audits the defaults. -/
theorem C9_witness :
    StrategyEngine.make (some quarter_weights) =
      Except.ok (⟨quarter_weights⟩ : StrategyEngine) ∧
    recProp (fun rec =>
      rec.raw_inputs.weights = DEFAULT_WEIGHTS ∧
      ((⟨quarter_weights⟩ : StrategyEngine).weights ≠ DEFAULT_WEIGHTS →
        rec.raw_inputs.weights ≠ (⟨quarter_weights⟩ : StrategyEngine).weights))
      ((⟨quarter_weights⟩ : StrategyEngine).compute_recommendation two_bar_series
        none none none) := by
  constructor
  · unfold StrategyEngine.make
    simp [quarter_weights]
    simp [math_isclose]
    norm_num [abs_le]
  · exact C9_theorem ⟨quarter_weights⟩ two_bar_series none none none

/-- The code's alignment count, in the asymmetric closed form C10 states:
scores `≥ 0` are counted when the blend is non-negative, scores `< 0` when
it is negative. -/
theorem alignment_of_eq (scores : List ℚ) (b : ℚ) :
    alignment_of scores b =
      ((if 0 ≤ b then scores.countP (fun x => decide (0 ≤ x))
        else scores.countP (fun x => decide (x < 0))) : ℚ) / 4 := by
  unfold alignment_of
  rcases le_or_lt 0 b with hb | hb
  · rw [if_pos hb, if_pos hb]
    congr 1
    norm_cast
    apply List.countP_congr
    intro x _
    simp only [decide_eq_true_eq]
    constructor
    · rintro (⟨h, _⟩ | ⟨_, hc⟩)
      · exact h
      · exact absurd hc (by omega)
    · intro h
      exact Or.inl ⟨h, by omega⟩
  · rw [if_neg (not_le.mpr hb), if_neg (not_le.mpr hb)]
    congr 1
    norm_cast
    apply List.countP_congr
    intro x _
    simp only [decide_eq_true_eq]
    constructor
    · rintro (⟨_, hc⟩ | ⟨h, _⟩)
      · exact absurd hc (by decide)
      · exact h
    · intro h
      exact Or.inr ⟨h, by decide⟩

/-- `round(x, 4)` is the identity on quarters `k/4`, `k ≤ 4`. -/
theorem roundTo_eq_self {n : ℕ} {q : ℚ} (m : ℤ) (hm : q * 10 ^ n = (m : ℚ)) :
    roundTo n q = q := by
  unfold roundTo
  rw [hm, roundHalfEven_intCast, ← hm,
    mul_div_cancel_right₀ _ (by positivity : ((10 : ℚ) ^ n) ≠ 0)]

/-- C10.  The alignment recorded in every recommendation's audit map is the
asymmetric count: when the blend is non-negative it counts the sub-scores
`s ≥ 0` (a zero — unavailable — sub-score counts as agreement), and when
the blend is negative it counts the sub-scores `s < 0` (a zero counts as
disagreement), divided by 4. -/
theorem C10_theorem (e : StrategyEngine) (s : PriceSeries)
    (f : Option ForecastResult) (rs : Option RiskMetricsSnapshot)
    (vr : Option StatisticalValidationResult) :
    recProp (fun rec =>
      ∀ w_ml w_technical w_regime w_risk,
        weight_lookup e.weights "ml" = some w_ml →
        weight_lookup e.weights "technical" = some w_technical →
        weight_lookup e.weights "regime" = some w_regime →
        weight_lookup e.weights "risk" = some w_risk →
        rec.raw_inputs.alignment =
          ((if 0 ≤ blended_of w_ml w_technical w_regime w_risk s f rs vr then
              (scores_of s f rs vr).countP (fun x => decide (0 ≤ x))
            else (scores_of s f rs vr).countP (fun x => decide (x < 0))) : ℚ) / 4)
      (e.compute_recommendation s f rs vr) := by
  apply recProp_compute
  intro w_ml w_technical w_regime w_risk hml hmt hmg hmr
  intro w1 w2 w3 w4 e1 e2 e3 e4
  have q1 : w1 = w_ml := by rw [hml] at e1; exact (Option.some_inj.mp e1).symm
  have q2 : w2 = w_technical := by rw [hmt] at e2; exact (Option.some_inj.mp e2).symm
  have q3 : w3 = w_regime := by rw [hmg] at e3; exact (Option.some_inj.mp e3).symm
  have q4 : w4 = w_risk := by rw [hmr] at e4; exact (Option.some_inj.mp e4).symm
  subst q1 q2 q3 q4
  have h1 : (recommendation_core w1 w2 w3 w4 s f rs vr).raw_inputs.alignment =
      roundTo 4 (alignment_of (scores_of s f rs vr)
        (blended_of w1 w2 w3 w4 s f rs vr)) := rfl
  rw [h1, alignment_of_eq]
  rcases le_or_lt 0 (blended_of w1 w2 w3 w4 s f rs vr) with hb | hb
  · rw [if_pos hb]
    apply roundTo_eq_self
      ((2500 : ℤ) * ((scores_of s f rs vr).countP (fun x => decide (0 ≤ x))))
    push_cast
    ring
  · rw [if_neg (not_le.mpr hb)]
    apply roundTo_eq_self
      ((2500 : ℤ) * ((scores_of s f rs vr).countP (fun x => decide (x < 0))))
    push_cast
    ring

/-- C10, witness: the asymmetric-alignment statement instantiated on the
two-bar series with no optional inputs. -/
theorem C10_witness :
    recProp (fun rec =>
      ∀ w_ml w_technical w_regime w_risk,
        weight_lookup default_engine.weights "ml" = some w_ml →
        weight_lookup default_engine.weights "technical" = some w_technical →
        weight_lookup default_engine.weights "regime" = some w_regime →
        weight_lookup default_engine.weights "risk" = some w_risk →
        rec.raw_inputs.alignment =
          ((if 0 ≤ blended_of w_ml w_technical w_regime w_risk two_bar_series
                none none none then
              (scores_of two_bar_series none none none).countP
                (fun x => decide (0 ≤ x))
            else (scores_of two_bar_series none none none).countP
              (fun x => decide (x < 0))) : ℚ) / 4)
      (default_engine.compute_recommendation two_bar_series none none none) :=
  C10_theorem default_engine two_bar_series none none none

end EGX
